import Mathlib

set_option maxRecDepth 100000

deriving instance DecidableEq for Except

/-!
Shallow embedding of the Flexible Flyer configurator core (app.js):
the STL mesh codec (ASCII scanner, binary record reader, format dispatcher),
the SCAD source assembler, the OpenSCAD compile/retry wrapper, and the
scene-graph triangle exporter.  Machine floats are modelled either by their
exact rational value (scene arithmetic), by their little-endian 32-bit bit
pattern (binary STL records), or by an abstract host format/parse function
(float-to-string and string-to-float conversions, which the reference
explicitly leaves to the host language).
-/

/-- Character class of the JS regex fragment used by the ASCII STL vertex
pattern: the set matched by the bracket expression minus-plus-e-E-digits-dot. -/
def numChar (c : Char) : Bool :=
  c == '-' || c == '+' || c == 'e' || c == 'E' || c.isDigit || c == '.'

/-- ASCII whitespace matched by the regex escape backslash-s (the Unicode
space classes are not needed by any input produced or consumed here). -/
def wsChar (c : Char) : Bool :=
  c == ' ' || c == '\t' || c == '\n' || c == '\r' || c == '\x0b' || c == '\x0c'

/-- Maximal run of characters satisfying a predicate, together with the rest:
the greedy matching of a character class with the plus quantifier. -/
def takeRun (p : Char → Bool) : List Char → List Char × List Char
  | [] => ([], [])
  | c :: cs =>
    if p c then
      let r := takeRun p cs
      (c :: r.1, r.2)
    else ([], c :: cs)

/-- Match a literal character sequence at the front of the input, returning
the remainder on success. -/
def stripLit : List Char → List Char → Option (List Char)
  | [], s => some s
  | _ :: _, [] => none
  | p :: ps, c :: cs => if c == p then stripLit ps cs else none

/-- The characters of the literal keyword of the vertex pattern. -/
def vertexLit : List Char := ['v', 'e', 'r', 't', 'e', 'x']

/-- Attempt the regex from bufferGeometryFromAsciiSTL at the current
position: the keyword, then three whitespace-separated runs of number
characters; on success returns the three captured groups and the rest of
the input (the regex continues scanning right after a match). -/
def matchVertexAt (cs : List Char) : Option ((String × String × String) × List Char) :=
  match stripLit vertexLit cs with
  | none => none
  | some r0 =>
    let w1 := takeRun wsChar r0
    if w1.1.isEmpty then none else
    let t1 := takeRun numChar w1.2
    if t1.1.isEmpty then none else
    let w2 := takeRun wsChar t1.2
    if w2.1.isEmpty then none else
    let t2 := takeRun numChar w2.2
    if t2.1.isEmpty then none else
    let w3 := takeRun wsChar t2.2
    if w3.1.isEmpty then none else
    let t3 := takeRun numChar w3.2
    if t3.1.isEmpty then none else
    some ((⟨t1.1⟩, ⟨t2.1⟩, ⟨t3.1⟩), t3.2)

/-- Scan the whole input for successive matches of the vertex pattern, as the
global-flag exec loop of bufferGeometryFromAsciiSTL does: try a match at the
current position; on success continue after the match, otherwise advance one
character.  The fuel argument bounds the recursion and is instantiated with
the input length. -/
def scanVertexAux : Nat → List Char → List (String × String × String)
  | 0, _ => []
  | Nat.succ fuel, cs =>
    match matchVertexAt cs with
    | some (t, rest) => t :: scanVertexAux fuel rest
    | none =>
      match cs with
      | [] => []
      | _ :: tl => scanVertexAux fuel tl

/-- All vertex-pattern matches of a character list, in document order. -/
def scanVertex (cs : List Char) : List (String × String × String) :=
  scanVertexAux cs.length cs

/-- The vertex triples extracted from an ASCII STL text by
bufferGeometryFromAsciiSTL, each component still in its source spelling
(parseFloat, being host float parsing, is applied separately). -/
def asciiVertexTokens (text : String) : List (String × String × String) :=
  scanVertex text.data

/-- Group a flat list into consecutive triples, dropping an incomplete tail:
how a position buffer of vertices is consumed three at a time as triangles. -/
def group3 {γ : Type} : List γ → List (γ × γ × γ)
  | a :: b :: c :: rest => (a, b, c) :: group3 rest
  | _ => []

/-- Decoded vertices of an ASCII STL text under a host string-to-float
function (JS parseFloat). -/
def parsedVertices {β : Type} (parse : String → β) (text : String) : List (β × β × β) :=
  (asciiVertexTokens text).map (fun v => (parse v.1, parse v.2.1, parse v.2.2))

/-- Decoded triangles of an ASCII STL text: consecutive vertex triples. -/
def decodedTriangles {β : Type} (parse : String → β) (text : String) :
    List ((β × β × β) × (β × β × β) × (β × β × β)) :=
  group3 (parsedVertices parse text)

/-- A vector of three coordinates, generic in the scalar representation. -/
structure Vec3 (α : Type) where
  x : α
  y : α
  z : α
deriving DecidableEq

/-- One triangle as built by the export helpers: a normal and three
vertices. -/
structure Tri (α : Type) where
  n : Vec3 α
  a : Vec3 α
  b : Vec3 α
  c : Vec3 α
deriving DecidableEq

/-- One vertex line of trianglesToAsciiSTL, with the host float-to-string
conversion abstracted as fmt. -/
def vertexLine {α : Type} (fmt : α → String) (v : Vec3 α) : String :=
  "      vertex " ++ fmt v.x ++ " " ++ fmt v.y ++ " " ++ fmt v.z ++ "\n"

/-- One facet block of trianglesToAsciiSTL. -/
def facetBlock {α : Type} (fmt : α → String) (t : Tri α) : String :=
  "  facet normal " ++ fmt t.n.x ++ " " ++ fmt t.n.y ++ " " ++ fmt t.n.z ++ "\n"
    ++ "    outer loop\n"
    ++ vertexLine fmt t.a
    ++ vertexLine fmt t.b
    ++ vertexLine fmt t.c
    ++ "    endloop\n"
    ++ "  endfacet\n"

/-- The facet blocks of a triangle list in input order, as accumulated by the
for-of loop of trianglesToAsciiSTL. -/
def facetBlocks {α : Type} (fmt : α → String) : List (Tri α) → String
  | [] => ""
  | t :: ts => facetBlock fmt t ++ facetBlocks fmt ts

/-- The ASCII STL encoder trianglesToAsciiSTL: header line, one facet block
per triangle, trailer line. -/
def trianglesToAsciiSTL {α : Type} (fmt : α → String) (triangles : List (Tri α))
    (name : String) : String :=
  "solid " ++ name ++ "\n" ++ facetBlocks fmt triangles ++ "endsolid " ++ name ++ "\n"

/-- Read one byte of a buffer, failing outside the bounds exactly as a JS
DataView access does. -/
def readByte (buf : List Nat) (i : Nat) : Except String Nat :=
  match buf[i]? with
  | some b => Except.ok b
  | none => Except.error "Offset is outside the bounds of the DataView"

/-- Read a little-endian 32-bit word.  This models both DataView.getUint32
and DataView.getFloat32 of the source: a float32 value is represented here
by its 4-byte little-endian bit pattern, which is exactly what survives the
read-then-store round trip through the Float32Array. -/
def readWord32 (buf : List Nat) (off : Nat) : Except String Nat := do
  let b0 ← readByte buf off
  let b1 ← readByte buf (off + 1)
  let b2 ← readByte buf (off + 2)
  let b3 ← readByte buf (off + 3)
  pure (b0 + 256 * b1 + 65536 * b2 + 16777216 * b3)

/-- One 50-byte record of a binary STL body, as read by the loop body of
bufferGeometryFromBinarySTL: a normal (repeated once per vertex in the
output, as the source pushes it three times) and three vertices; the
trailing two attribute bytes of the record are not touched. -/
def stlRecord (buf : List Nat) (i : Nat) : Except String (List Nat × List Nat) := do
  let off := 84 + i * 50
  let nx ← readWord32 buf off
  let ny ← readWord32 buf (off + 4)
  let nz ← readWord32 buf (off + 8)
  let v0x ← readWord32 buf (off + 12)
  let v0y ← readWord32 buf (off + 16)
  let v0z ← readWord32 buf (off + 20)
  let v1x ← readWord32 buf (off + 24)
  let v1y ← readWord32 buf (off + 28)
  let v1z ← readWord32 buf (off + 32)
  let v2x ← readWord32 buf (off + 36)
  let v2y ← readWord32 buf (off + 40)
  let v2z ← readWord32 buf (off + 44)
  pure ([v0x, v0y, v0z, v1x, v1y, v1z, v2x, v2y, v2z],
        [nx, ny, nz, nx, ny, nz, nx, ny, nz])

/-- The records from index i for k more faces, read sequentially as by the
for loop (the first out-of-bounds access aborts the whole decode). -/
def stlRecordsFrom (buf : List Nat) (i : Nat) : Nat → Except String (List (List Nat × List Nat))
  | 0 => pure []
  | Nat.succ k => do
    let r ← stlRecord buf i
    let rest ← stlRecordsFrom buf (i + 1) k
    pure (r :: rest)

/-- The geometry produced by the binary decoder: flat position and normal
buffers of 32-bit words (nine words per face each). -/
structure BinGeo where
  positions : List Nat
  normals : List Nat
deriving DecidableEq

/-- The binary STL decoder bufferGeometryFromBinarySTL: the face count is the
little-endian uint32 at offset 80, and each face is a 50-byte record at
offset 84 plus 50 times its index. -/
def bufferGeometryFromBinarySTL (buf : List Nat) : Except String BinGeo := do
  let faces ← readWord32 buf 80
  let recs ← stlRecordsFrom buf 0 faces
  pure ⟨(recs.map Prod.fst).flatten, (recs.map Prod.snd).flatten⟩

/-- ASCII lowercase folding of one character (the effect of
String.prototype.toLowerCase on the inputs handled here). -/
def asciiLower (c : Char) : Char :=
  if 65 ≤ c.toNat ∧ c.toNat ≤ 90 then Char.ofNat (c.toNat + 32) else c

/-- JS String.prototype.toLowerCase restricted to ASCII folding. -/
def jsToLower (s : String) : String := ⟨s.data.map asciiLower⟩

/-- JS String.prototype.trim: strip leading and trailing whitespace. -/
def jsTrim (s : String) : String :=
  ⟨((s.data.dropWhile (fun c => wsChar c)).reverse.dropWhile (fun c => wsChar c)).reverse⟩

/-- Lossy UTF-8 text decoding of a byte buffer as performed by TextDecoder:
ASCII bytes decode to themselves; other bytes are approximated by the
replacement character (multi-byte sequences do not matter to any property
proved here, which only inspect ASCII content). -/
def utf8DecodeLossy (bytes : List Nat) : String :=
  ⟨bytes.map (fun b => if b < 128 then Char.ofNat b else '�')⟩

/-- The format sniff looksLikeASCII: a buffer shorter than 84 bytes is
reported as not-ASCII; otherwise the first 80 bytes are decoded, trimmed,
case-folded and tested for the solid keyword. -/
def looksLikeASCII (buf : List Nat) : Bool :=
  if buf.length < 84 then false
  else
    ("solid".data).isPrefixOf
      (jsToLower (jsTrim (utf8DecodeLossy (buf.take (min 80 buf.length))))).data

/-- Input to the STL dispatcher: already-textual data or a raw byte buffer. -/
inductive StlInput where
  | text (s : String)
  | bytes (buf : List Nat)

/-- Result of a decode: the ASCII path yields the scanned vertex-token
triples, the binary path the word-level geometry. -/
inductive StlGeo where
  | ascii (verts : List (String × String × String))
  | binary (g : BinGeo)
deriving DecidableEq

/-- The dispatcher bufferGeometryFromSTL: strings always take the ASCII
path; byte buffers take the ASCII path exactly when looksLikeASCII accepts
them and the binary path otherwise. -/
def bufferGeometryFromSTL : StlInput → Except String StlGeo
  | .text s => Except.ok (.ascii (asciiVertexTokens s))
  | .bytes buf =>
    if looksLikeASCII buf then
      Except.ok (.ascii (asciiVertexTokens (utf8DecodeLossy buf)))
    else
      (bufferGeometryFromBinarySTL buf).map .binary

/-- A number-class character is not whitespace (the two regex classes used
by the vertex pattern are disjoint, so greedy matching never backtracks). -/
theorem numChar_not_ws {c : Char} (h : numChar c = true) : wsChar c = false := by
  cases hw : wsChar c with
  | false => rfl
  | true =>
    exfalso
    have hc : c = ' ' ∨ c = '\t' ∨ c = '\n' ∨ c = '\r' ∨ c = '\x0b' ∨ c = '\x0c' := by
      simp only [wsChar, Bool.or_eq_true, beq_iff_eq] at hw
      tauto
    rcases hc with rfl | rfl | rfl | rfl | rfl | rfl <;> exact absurd h (by decide)

/-- A number-class character is not the letter that starts the vertex
keyword. -/
theorem numChar_not_v {c : Char} (h : numChar c = true) : c ≠ 'v' := by
  intro rfl'
  subst rfl'
  exact absurd h (by decide)

/-- Length bookkeeping for greedy runs. -/
theorem takeRun_length (p : Char → Bool) (l : List Char) :
    (takeRun p l).1.length + (takeRun p l).2.length = l.length := by
  induction l with
  | nil => simp [takeRun]
  | cons c cs ih =>
    by_cases h : p c <;> simp [takeRun, h] <;> omega

/-- A greedy run consumes exactly a block of class characters followed by a
non-class character (or the end of input). -/
theorem takeRun_append (p : Char → Bool) (X Y : List Char)
    (hX : ∀ c ∈ X, p c = true)
    (hY : ∀ d, Y.head? = some d → p d = false) :
    takeRun p (X ++ Y) = (X, Y) := by
  induction X with
  | nil =>
    cases Y with
    | nil => rfl
    | cons d tl =>
      have hd : p d = false := hY d rfl
      simp [takeRun, hd]
  | cons c cs ih =>
    have hc : p c = true := hX c (by simp)
    simp [takeRun, hc, ih (fun d hd => hX d (by simp [hd]))]

/-- Stripping a literal off an input that starts with it. -/
theorem stripLit_self_append (p r : List Char) : stripLit p (p ++ r) = some r := by
  induction p with
  | nil => rfl
  | cons c cs ih => simp [stripLit, ih]

/-- Length bookkeeping for literal stripping. -/
theorem stripLit_some_length {p s r : List Char} (h : stripLit p s = some r) :
    r.length + p.length = s.length := by
  induction p generalizing s with
  | nil =>
    simp [stripLit] at h
    simp [h]
  | cons c cs ih =>
    cases s with
    | nil => simp [stripLit] at h
    | cons d tl =>
      simp only [stripLit] at h
      by_cases hd : d == c
      · rw [if_pos hd] at h
        have := ih h
        simp [List.length_cons]
        omega
      · rw [if_neg hd] at h
        cases h

/-- A successful vertex-pattern match consumes at least the keyword, so the
scan always advances. -/
theorem matchVertexAt_rest_lt {cs : List Char} {t rest}
    (h : matchVertexAt cs = some (t, rest)) : rest.length < cs.length := by
  unfold matchVertexAt at h
  cases h0 : stripLit vertexLit cs with
  | none => rw [h0] at h; cases h
  | some r0 =>
    rw [h0] at h
    dsimp only at h
    have l0 := stripLit_some_length h0
    have l1 := takeRun_length wsChar r0
    have l2 := takeRun_length numChar (takeRun wsChar r0).2
    have l3 := takeRun_length wsChar (takeRun numChar (takeRun wsChar r0).2).2
    have l4 := takeRun_length numChar (takeRun wsChar (takeRun numChar (takeRun wsChar r0).2).2).2
    have l5 := takeRun_length wsChar
      (takeRun numChar (takeRun wsChar (takeRun numChar (takeRun wsChar r0).2).2).2).2
    have l6 := takeRun_length numChar
      (takeRun wsChar (takeRun numChar (takeRun wsChar (takeRun numChar (takeRun wsChar r0).2).2).2).2).2
    split at h
    · exact absurd h (by simp)
    · split at h
      · exact absurd h (by simp)
      · split at h
        · exact absurd h (by simp)
        · split at h
          · exact absurd h (by simp)
          · split at h
            · exact absurd h (by simp)
            · split at h
              · exact absurd h (by simp)
              · simp only [Option.some.injEq, Prod.mk.injEq] at h
                obtain ⟨-, hrest⟩ := h
                subst hrest
                simp only [vertexLit, List.length_cons, List.length_nil] at l0
                omega

/-- The empty input never matches. -/
theorem matchVertexAt_nil : matchVertexAt [] = none := rfl

/-- An input whose first character is not the keyword letter never matches. -/
theorem matchVertexAt_none_of_head {c : Char} {tl : List Char} (h : c ≠ 'v') :
    matchVertexAt (c :: tl) = none := by
  have hs : stripLit vertexLit (c :: tl) = none := by
    simp [vertexLit, stripLit, h]
  unfold matchVertexAt
  rw [hs]

/-- Scanning the empty input yields nothing. -/
theorem scanVertexAux_nil (fuel : Nat) : scanVertexAux fuel [] = [] := by
  cases fuel <;> rfl

/-- The scan result does not depend on the fuel, once the fuel covers the
input length. -/
theorem scanVertexAux_fuel :
    ∀ (f₁ f₂ : Nat) (cs : List Char), cs.length ≤ f₁ → cs.length ≤ f₂ →
      scanVertexAux f₁ cs = scanVertexAux f₂ cs := by
  intro f₁
  induction f₁ with
  | zero =>
    intro f₂ cs h1 _
    have : cs = [] := List.length_eq_zero.mp (Nat.le_zero.mp h1)
    subst this
    rw [scanVertexAux_nil, scanVertexAux_nil]
  | succ k ih =>
    intro f₂ cs h1 h2
    cases cs with
    | nil => rw [scanVertexAux_nil, scanVertexAux_nil]
    | cons c tl =>
      cases f₂ with
      | zero => simp at h2
      | succ k2 =>
        simp only [scanVertexAux]
        cases hm : matchVertexAt (c :: tl) with
        | some pr =>
          obtain ⟨t, rest⟩ := pr
          have hlt := matchVertexAt_rest_lt hm
          simp only [List.length_cons] at h1 h2 hlt
          dsimp only
          rw [ih k2 rest (by omega) (by omega)]
        | none =>
          simp only [List.length_cons] at h1 h2
          dsimp only
          exact ih k2 tl (by omega) (by omega)

/-- One skipped character. -/
theorem scanVertex_skip {c : Char} {tl : List Char}
    (h : matchVertexAt (c :: tl) = none) : scanVertex (c :: tl) = scanVertex tl := by
  simp [scanVertex, scanVertexAux, h]

/-- One successful match. -/
theorem scanVertex_match {cs : List Char} {t rest}
    (h : matchVertexAt cs = some (t, rest)) : scanVertex cs = t :: scanVertex rest := by
  have hlt := matchVertexAt_rest_lt h
  cases cs with
  | nil => rw [matchVertexAt_nil] at h; cases h
  | cons c tl =>
    simp only [scanVertex, List.length_cons, scanVertexAux, h]
    simp only [List.length_cons] at hlt
    rw [scanVertexAux_fuel tl.length rest.length rest (by omega) (by omega)]

/-- A block with no keyword letter contributes nothing to the scan. -/
theorem scanVertex_append_skip {X Y : List Char} (hX : ∀ c ∈ X, c ≠ 'v') :
    scanVertex (X ++ Y) = scanVertex Y := by
  induction X with
  | nil => simp
  | cons c cs ih =>
    have h1 : matchVertexAt (c :: (cs ++ Y)) = none :=
      matchVertexAt_none_of_head (hX c (by simp))
    rw [List.cons_append, scanVertex_skip h1, ih (fun d hd => hX d (by simp [hd]))]

/-- An input with no keyword letter scans to nothing. -/
theorem scanVertex_eq_nil {l : List Char} (hl : ∀ c ∈ l, c ≠ 'v') :
    scanVertex l = [] := by
  have := scanVertex_append_skip (Y := []) hl
  simpa using this

/-- A nonempty source token: what a host float-to-string conversion must
produce for the ASCII form to scan back (a nonempty run of number-class
characters, which is what JS emits for every finite double). -/
def numToken (s : String) : Prop := s.data ≠ [] ∧ ∀ c ∈ s.data, numChar c = true

instance numToken_decidable (s : String) : Decidable (numToken s) := by
  unfold numToken
  infer_instance

/-- All twelve formatted fields of a triangle are well-formed tokens. -/
def triTokensOK {α : Type} (fmt : α → String) (t : Tri α) : Prop :=
  numToken (fmt t.n.x) ∧ numToken (fmt t.n.y) ∧ numToken (fmt t.n.z) ∧
  numToken (fmt t.a.x) ∧ numToken (fmt t.a.y) ∧ numToken (fmt t.a.z) ∧
  numToken (fmt t.b.x) ∧ numToken (fmt t.b.y) ∧ numToken (fmt t.b.z) ∧
  numToken (fmt t.c.x) ∧ numToken (fmt t.c.y) ∧ numToken (fmt t.c.z)

instance triTokensOK_decidable {α : Type} (fmt : α → String) (t : Tri α) :
    Decidable (triTokensOK fmt t) := by
  unfold triTokensOK
  infer_instance

/-- The vertex token triples a triangle contributes to the encoded text. -/
def triVertexTokens {α : Type} (fmt : α → String) (t : Tri α) :
    List (String × String × String) :=
  [(fmt t.a.x, fmt t.a.y, fmt t.a.z),
   (fmt t.b.x, fmt t.b.y, fmt t.b.z),
   (fmt t.c.x, fmt t.c.y, fmt t.c.z)]

/-- Characters of a well-formed token avoid the keyword letter. -/
theorem token_no_v {s : String} (h : numToken s) : ∀ c ∈ s.data, c ≠ 'v' :=
  fun c hc => numChar_not_v (h.2 c hc)

/-- A single space run before a token block. -/
theorem takeRun_ws_one {Y : List Char} (hY : ∀ d, Y.head? = some d → wsChar d = false) :
    takeRun wsChar (' ' :: Y) = ([' '], Y) := by
  have h := takeRun_append wsChar [' '] Y (by intro c hc; simp at hc; subst hc; decide) hY
  simpa using h

/-- The head of a nonempty token block is not whitespace. -/
theorem head_not_ws {X Y : List Char} (hne : X ≠ []) (hX : ∀ c ∈ X, numChar c = true) :
    ∀ d, (X ++ Y).head? = some d → wsChar d = false := by
  cases X with
  | nil => exact absurd rfl hne
  | cons x xs =>
    intro d hd
    simp only [List.cons_append, List.head?_cons, Option.some.injEq] at hd
    subst hd
    exact numChar_not_ws (hX x (by simp))

/-- A space terminates a greedy number run. -/
theorem head_space_not_num (rest : List Char) :
    ∀ d, ((' ' :: rest) : List Char).head? = some d → numChar d = false := by
  intro d hd
  simp only [List.head?_cons, Option.some.injEq] at hd
  subst hd
  decide

/-- A newline terminates a greedy number run. -/
theorem head_newline_not_num (rest : List Char) :
    ∀ d, (('\n' :: rest) : List Char).head? = some d → numChar d = false := by
  intro d hd
  simp only [List.head?_cons, Option.some.injEq] at hd
  subst hd
  decide

/-- Evaluating the vertex pattern on exactly the text a vertex line carries:
the keyword, one space, and three space-separated well-formed tokens followed
by anything that cannot extend the last token. -/
theorem matchVertexAt_build {a1 a2 a3 R : List Char}
    (h1 : a1 ≠ []) (h1c : ∀ c ∈ a1, numChar c = true)
    (h2 : a2 ≠ []) (h2c : ∀ c ∈ a2, numChar c = true)
    (h3 : a3 ≠ []) (h3c : ∀ c ∈ a3, numChar c = true)
    (hR : ∀ d, R.head? = some d → numChar d = false) :
    matchVertexAt (vertexLit ++ ' ' :: (a1 ++ ' ' :: (a2 ++ ' ' :: (a3 ++ R))))
      = some ((⟨a1⟩, ⟨a2⟩, ⟨a3⟩), R) := by
  have e1 : takeRun wsChar (' ' :: (a1 ++ ' ' :: (a2 ++ ' ' :: (a3 ++ R))))
      = ([' '], a1 ++ ' ' :: (a2 ++ ' ' :: (a3 ++ R))) :=
    takeRun_ws_one (head_not_ws h1 h1c)
  have e2 : takeRun numChar (a1 ++ ' ' :: (a2 ++ ' ' :: (a3 ++ R)))
      = (a1, ' ' :: (a2 ++ ' ' :: (a3 ++ R))) :=
    takeRun_append numChar _ _ h1c (head_space_not_num _)
  have e3 : takeRun wsChar (' ' :: (a2 ++ ' ' :: (a3 ++ R)))
      = ([' '], a2 ++ ' ' :: (a3 ++ R)) :=
    takeRun_ws_one (head_not_ws h2 h2c)
  have e4 : takeRun numChar (a2 ++ ' ' :: (a3 ++ R)) = (a2, ' ' :: (a3 ++ R)) :=
    takeRun_append numChar _ _ h2c (head_space_not_num _)
  have e5 : takeRun wsChar (' ' :: (a3 ++ R)) = ([' '], a3 ++ R) :=
    takeRun_ws_one (head_not_ws h3 h3c)
  have e6 : takeRun numChar (a3 ++ R) = (a3, R) :=
    takeRun_append numChar _ _ h3c hR
  have i1 : a1.isEmpty = false := by cases a1 with | nil => exact absurd rfl h1 | cons _ _ => rfl
  have i2 : a2.isEmpty = false := by cases a2 with | nil => exact absurd rfl h2 | cons _ _ => rfl
  have i3 : a3.isEmpty = false := by cases a3 with | nil => exact absurd rfl h3 | cons _ _ => rfl
  unfold matchVertexAt
  rw [stripLit_self_append]
  simp [e1, e2, e3, e4, e5, e6, i1, i2, i3]

/-- One matched vertex line inside a larger scan. -/
theorem scanVertex_vertexMatch {a1 a2 a3 R : List Char}
    (h1 : a1 ≠ []) (h1c : ∀ c ∈ a1, numChar c = true)
    (h2 : a2 ≠ []) (h2c : ∀ c ∈ a2, numChar c = true)
    (h3 : a3 ≠ []) (h3c : ∀ c ∈ a3, numChar c = true)
    (hR : ∀ d, R.head? = some d → numChar d = false) :
    scanVertex (vertexLit ++ ' ' :: (a1 ++ ' ' :: (a2 ++ ' ' :: (a3 ++ R))))
      = (⟨a1⟩, ⟨a2⟩, ⟨a3⟩) :: scanVertex R :=
  scanVertex_match (matchVertexAt_build h1 h1c h2 h2c h3 h3c hR)

/-- Skipping one character that cannot start the keyword. -/
theorem scanVertex_cons_ne {c : Char} (h : c ≠ 'v') (l : List Char) :
    scanVertex (c :: l) = scanVertex l :=
  scanVertex_skip (matchVertexAt_none_of_head h)

/-- Skipping a leading space. -/
theorem scanVertex_space_cons (l : List Char) : scanVertex (' ' :: l) = scanVertex l :=
  scanVertex_cons_ne (by decide) l

/-- Skipping a leading newline. -/
theorem scanVertex_newline_cons (l : List Char) : scanVertex ('\n' :: l) = scanVertex l :=
  scanVertex_cons_ne (by decide) l

/-- Character skip rules for every literal letter the encoder emits outside
the vertex keyword. -/
theorem svSkipA (l : List Char) : scanVertex ('a' :: l) = scanVertex l :=
  scanVertex_cons_ne (by decide) l

theorem svSkipC (l : List Char) : scanVertex ('c' :: l) = scanVertex l :=
  scanVertex_cons_ne (by decide) l

theorem svSkipD (l : List Char) : scanVertex ('d' :: l) = scanVertex l :=
  scanVertex_cons_ne (by decide) l

theorem svSkipE (l : List Char) : scanVertex ('e' :: l) = scanVertex l :=
  scanVertex_cons_ne (by decide) l

theorem svSkipF (l : List Char) : scanVertex ('f' :: l) = scanVertex l :=
  scanVertex_cons_ne (by decide) l

theorem svSkipI (l : List Char) : scanVertex ('i' :: l) = scanVertex l :=
  scanVertex_cons_ne (by decide) l

theorem svSkipL (l : List Char) : scanVertex ('l' :: l) = scanVertex l :=
  scanVertex_cons_ne (by decide) l

theorem svSkipM (l : List Char) : scanVertex ('m' :: l) = scanVertex l :=
  scanVertex_cons_ne (by decide) l

theorem svSkipN (l : List Char) : scanVertex ('n' :: l) = scanVertex l :=
  scanVertex_cons_ne (by decide) l

theorem svSkipO (l : List Char) : scanVertex ('o' :: l) = scanVertex l :=
  scanVertex_cons_ne (by decide) l

theorem svSkipP (l : List Char) : scanVertex ('p' :: l) = scanVertex l :=
  scanVertex_cons_ne (by decide) l

theorem svSkipR (l : List Char) : scanVertex ('r' :: l) = scanVertex l :=
  scanVertex_cons_ne (by decide) l

theorem svSkipS (l : List Char) : scanVertex ('s' :: l) = scanVertex l :=
  scanVertex_cons_ne (by decide) l

theorem svSkipT (l : List Char) : scanVertex ('t' :: l) = scanVertex l :=
  scanVertex_cons_ne (by decide) l

theorem svSkipU (l : List Char) : scanVertex ('u' :: l) = scanVertex l :=
  scanVertex_cons_ne (by decide) l

/-- Scanning a vertex line written exactly as the encoder writes it (the
keyword, one space, three tokens separated by single spaces, a newline):
one match is produced and scanning resumes at the newline. -/
theorem scanVertex_vertexLine {a1 a2 a3 R : List Char}
    (h1 : a1 ≠ []) (h1c : ∀ c ∈ a1, numChar c = true)
    (h2 : a2 ≠ []) (h2c : ∀ c ∈ a2, numChar c = true)
    (h3 : a3 ≠ []) (h3c : ∀ c ∈ a3, numChar c = true) :
    scanVertex ('v' :: 'e' :: 'r' :: 't' :: 'e' :: 'x' :: ' '
        :: (a1 ++ ' ' :: (a2 ++ ' ' :: (a3 ++ '\n' :: R))))
      = (⟨a1⟩, ⟨a2⟩, ⟨a3⟩) :: scanVertex ('\n' :: R) := by
  have h := scanVertex_vertexMatch h1 h1c h2 h2c h3 h3c
    (R := '\n' :: R) (head_newline_not_num R)
  simpa [vertexLit] using h

/-- Splitting the vertex-line keyword text into skip spaces, the pattern
keyword and its following space. -/
theorem vertexKeyword_split :
    ("      vertex " : String).data = ("      " : String).data ++ (vertexLit ++ [' ']) := by
  decide

/-- The single-space separator. -/
theorem space_data : (" " : String).data = [' '] := rfl

/-- The newline terminator. -/
theorem newline_data : ("\n" : String).data = ['\n'] := rfl

/-- No keyword letter in the facet-normal prefix. -/
theorem facetNormal_no_v : ∀ c ∈ ("  facet normal " : String).data, c ≠ 'v' := by decide

/-- No keyword letter in the outer-loop line. -/
theorem outerLoop_no_v : ∀ c ∈ ("    outer loop\n" : String).data, c ≠ 'v' := by decide

/-- No keyword letter in the vertex-line indentation. -/
theorem indent_no_v : ∀ c ∈ ("      " : String).data, c ≠ 'v' := by decide

/-- No keyword letter in the endloop line. -/
theorem endLoop_no_v : ∀ c ∈ ("    endloop\n" : String).data, c ≠ 'v' := by decide

/-- No keyword letter in the endfacet line. -/
theorem endFacet_no_v : ∀ c ∈ ("  endfacet\n" : String).data, c ≠ 'v' := by decide

/-- No keyword letter in the header keyword. -/
theorem solidHeader_no_v : ∀ c ∈ ("solid " : String).data, c ≠ 'v' := by decide

/-- No keyword letter in the trailer keyword. -/
theorem endsolidTrailer_no_v : ∀ c ∈ ("endsolid " : String).data, c ≠ 'v' := by decide

/-- Scanning one facet block: it contributes exactly its three vertex-token
triples, whatever follows it. -/
theorem scanVertex_facetBlock {α : Type} (fmt : α → String) (t : Tri α) (REST : List Char)
    (ht : triTokensOK fmt t) :
    scanVertex ((facetBlock fmt t).data ++ REST)
      = (fmt t.a.x, fmt t.a.y, fmt t.a.z)
          :: (fmt t.b.x, fmt t.b.y, fmt t.b.z)
          :: (fmt t.c.x, fmt t.c.y, fmt t.c.z) :: scanVertex REST := by
  obtain ⟨hnx, hny, hnz, hax, hay, haz, hbx, hby, hbz, hcx, hcy, hcz⟩ := ht
  simp only [facetBlock, vertexLine, String.data_append, List.append_assoc,
    List.cons_append, List.singleton_append, List.nil_append]
  simp only [scanVertex_space_cons, scanVertex_newline_cons, svSkipA, svSkipC, svSkipD,
    svSkipE, svSkipF, svSkipI, svSkipL, svSkipM, svSkipN, svSkipO, svSkipP, svSkipR,
    svSkipS, svSkipT, svSkipU,
    scanVertex_append_skip (token_no_v hnx), scanVertex_append_skip (token_no_v hny),
    scanVertex_append_skip (token_no_v hnz),
    scanVertex_vertexLine hax.1 hax.2 hay.1 hay.2 haz.1 haz.2,
    scanVertex_vertexLine hbx.1 hbx.2 hby.1 hby.2 hbz.1 hbz.2,
    scanVertex_vertexLine hcx.1 hcx.2 hcy.1 hcy.2 hcz.1 hcz.2]

/-- Scanning the concatenated facet blocks followed by any keyword-free tail
yields exactly the vertex tokens of the triangles, in input order. -/
theorem scanVertex_facetBlocks {α : Type} (fmt : α → String) (tris : List (Tri α))
    (tail : List Char)
    (htris : ∀ t ∈ tris, triTokensOK fmt t)
    (htail : ∀ c ∈ tail, c ≠ 'v') :
    scanVertex ((facetBlocks fmt tris).data ++ tail)
      = tris.flatMap (triVertexTokens fmt) := by
  induction tris with
  | nil =>
    simp only [facetBlocks, List.flatMap_nil]
    rw [List.nil_append]
    exact scanVertex_eq_nil htail
  | cons t ts ih =>
    simp only [facetBlocks, String.data_append, List.append_assoc]
    rw [scanVertex_facetBlock fmt t _ (htris t (by simp))]
    rw [ih (fun u hu => htris u (by simp [hu]))]
    simp [triVertexTokens]

/-- Scanning the complete encoder output: with a keyword-free name and
well-formed tokens, the scan recovers exactly the encoded vertex tokens. -/
theorem asciiVertexTokens_encode {α : Type} (fmt : α → String) (tris : List (Tri α))
    (name : String)
    (hname : ∀ c ∈ name.data, c ≠ 'v')
    (htris : ∀ t ∈ tris, triTokensOK fmt t) :
    asciiVertexTokens (trianglesToAsciiSTL fmt tris name)
      = tris.flatMap (triVertexTokens fmt) := by
  unfold asciiVertexTokens trianglesToAsciiSTL
  simp only [String.data_append, List.append_assoc, List.cons_append, List.nil_append]
  have hfoot : ∀ c ∈ ('e' :: 'n' :: 'd' :: 's' :: 'o' :: 'l' :: 'i' :: 'd' :: ' '
      :: (name.data ++ '\n' :: ([] : List Char))), c ≠ 'v' := by
    intro c hc
    simp only [List.mem_cons, List.mem_append, List.mem_singleton, List.not_mem_nil,
      or_false] at hc
    rcases hc with rfl | rfl | rfl | rfl | rfl | rfl | rfl | rfl | rfl | hc | rfl
    all_goals first
      | decide
      | exact hname c hc
  simp only [svSkipS, svSkipO, svSkipL, svSkipI, svSkipD, scanVertex_space_cons]
  rw [scanVertex_append_skip hname, scanVertex_newline_cons]
  exact scanVertex_facetBlocks fmt tris _ htris hfoot

/-- Grouping a flat list built from exact triples recovers one triple per
source element. -/
theorem group3_triples {γ δ : Type} (f g h : δ → γ) (l : List δ) :
    group3 (l.flatMap (fun t => [f t, g t, h t])) = l.map (fun t => (f t, g t, h t)) := by
  induction l with
  | nil => rfl
  | cons t ts ih =>
    simp only [List.flatMap_cons, List.cons_append, List.nil_append, List.map_cons]
    simp only [group3, ih]

/-- C2 (amended): for a solid name free of the keyword letter and a mesh all
of whose coordinates format as nonempty number tokens, decoding the encoder
output recovers one triangle per input triangle, in order, each vertex being
the format-then-parse image of the original vertex; normals are not decoded.
The amendment restricts the name and the formatted coordinates: a name that
itself contains a vertex pattern, or a coordinate formatted as a non-token
(such as NaN), injects or destroys matches and breaks the round trip, as the
counterexample shows on the original claim. -/
theorem asciiRoundTrip {α β : Type} (fmt : α → String) (parse : String → β)
    (tris : List (Tri α)) (name : String)
    (hname : ∀ c ∈ name.data, c ≠ 'v')
    (htris : ∀ t ∈ tris, triTokensOK fmt t) :
    decodedTriangles parse (trianglesToAsciiSTL fmt tris name)
        = tris.map (fun t =>
            ((parse (fmt t.a.x), parse (fmt t.a.y), parse (fmt t.a.z)),
             (parse (fmt t.b.x), parse (fmt t.b.y), parse (fmt t.b.z)),
             (parse (fmt t.c.x), parse (fmt t.c.y), parse (fmt t.c.z))))
      ∧ (decodedTriangles parse (trianglesToAsciiSTL fmt tris name)).length
          = tris.length := by
  have he := asciiVertexTokens_encode fmt tris name hname htris
  have hmain : decodedTriangles parse (trianglesToAsciiSTL fmt tris name)
      = tris.map (fun t =>
          ((parse (fmt t.a.x), parse (fmt t.a.y), parse (fmt t.a.z)),
           (parse (fmt t.b.x), parse (fmt t.b.y), parse (fmt t.b.z)),
           (parse (fmt t.c.x), parse (fmt t.c.y), parse (fmt t.c.z)))) := by
    unfold decodedTriangles parsedVertices
    rw [he]
    rw [List.map_flatMap]
    have hmap : (fun t : Tri α => (triVertexTokens fmt t).map
        (fun v => (parse v.1, parse v.2.1, parse v.2.2)))
        = fun t : Tri α =>
            [((parse (fmt t.a.x), parse (fmt t.a.y), parse (fmt t.a.z)) : β × β × β),
             (parse (fmt t.b.x), parse (fmt t.b.y), parse (fmt t.b.z)),
             (parse (fmt t.c.x), parse (fmt t.c.y), parse (fmt t.c.z))] := by
      funext t
      simp [triVertexTokens]
    rw [hmap]
    exact group3_triples _ _ _ tris
  exact ⟨hmain, by rw [hmain, List.length_map]⟩

/-- A concrete one-triangle mesh with string-valued coordinates (the host
format and parse functions instantiated with the identity). -/
def cexTri : Tri String :=
  ⟨⟨"0", "0", "0"⟩, ⟨"7", "8", "9"⟩, ⟨"10", "11", "12"⟩, ⟨"13", "14", "15"⟩⟩

/-- C2 (counterexample to the original claim): with the solid name chosen as
a vertex pattern, the header and trailer lines inject spurious matches, and
the decoded mesh does not reproduce the encoded vertices even though the
encoder was fed a perfectly ordinary one-triangle mesh. -/
theorem asciiRoundTrip_cex :
    decodedTriangles (fun s => s) (trianglesToAsciiSTL (fun s => s) [cexTri] "vertex 1 2 3")
      ≠ [(("7", "8", "9"), ("10", "11", "12"), ("13", "14", "15"))] := by
  decide

/-- Witness: the amended round trip evaluated on the one-triangle mesh with
the benign name of the specification. -/
theorem asciiRoundTrip_witness :
    decodedTriangles (fun s => s) (trianglesToAsciiSTL (fun s => s) [cexTri] "x")
        = [(("7", "8", "9"), ("10", "11", "12"), ("13", "14", "15"))]
      ∧ (decodedTriangles (fun s => s) (trianglesToAsciiSTL (fun s => s) [cexTri] "x")).length
          = 1 := by
  have h := asciiRoundTrip (fun s => s) (fun s => s) [cexTri] "x"
    (by decide) (by decide)
  simpa [cexTri] using h

/-- Binding a success just applies the continuation. -/
theorem exOk_bind {ε α β : Type} (a : α) (f : α → Except ε β) :
    (Except.ok a >>= f : Except ε β) = f a := rfl

/-- Binding a failure propagates it. -/
theorem exErr_bind {ε α β : Type} (e : ε) (f : α → Except ε β) :
    (Except.error e >>= f : Except ε β) = Except.error e := rfl

/-- A successful bind factors through a successful first step. -/
theorem bind_ok_elim {ε α β : Type} {a : Except ε α} {f : α → Except ε β} {v : β}
    (h : (a >>= f) = Except.ok v) : ∃ w, a = Except.ok w ∧ f w = Except.ok v := by
  cases a with
  | ok w => exact ⟨w, rfl, h⟩
  | error e => rw [exErr_bind] at h; cases h

/-- Total byte view of a buffer (out-of-range positions read as zero; every
position the decoder actually touches is proved in range). -/
def w32D (buf : List Nat) (off : Nat) : Nat :=
  buf.getD off 0 + 256 * buf.getD (off + 1) 0 + 65536 * buf.getD (off + 2) 0
    + 16777216 * buf.getD (off + 3) 0

/-- An in-bounds byte read succeeds with the stored byte. -/
theorem readByte_ok {buf : List Nat} {i : Nat} (h : i < buf.length) :
    readByte buf i = Except.ok (buf.getD i 0) := by
  unfold readByte
  rw [List.getElem?_eq_getElem h]
  rw [List.getD_eq_getElem buf 0 h]

/-- A successful byte read was in bounds. -/
theorem readByte_ok_bound {buf : List Nat} {i : Nat} {v : Nat}
    (h : readByte buf i = Except.ok v) : i < buf.length := by
  by_contra hge
  rw [not_lt] at hge
  unfold readByte at h
  rw [List.getElem?_eq_none hge] at h
  cases h

/-- An in-bounds word read succeeds with the little-endian value. -/
theorem readWord32_ok {buf : List Nat} {off : Nat} (h : off + 3 < buf.length) :
    readWord32 buf off = Except.ok (w32D buf off) := by
  unfold readWord32
  rw [readByte_ok (show off < buf.length by omega), exOk_bind]
  rw [readByte_ok (show off + 1 < buf.length by omega), exOk_bind]
  rw [readByte_ok (show off + 2 < buf.length by omega), exOk_bind]
  rw [readByte_ok (show off + 3 < buf.length by omega), exOk_bind]
  rfl

/-- A successful word read was entirely in bounds. -/
theorem readWord32_ok_bound {buf : List Nat} {off : Nat} {v : Nat}
    (h : readWord32 buf off = Except.ok v) : off + 3 < buf.length := by
  unfold readWord32 at h
  obtain ⟨b0, h0, h⟩ := bind_ok_elim h
  obtain ⟨b1, h1, h⟩ := bind_ok_elim h
  obtain ⟨b2, h2, h⟩ := bind_ok_elim h
  obtain ⟨b3, h3, h⟩ := bind_ok_elim h
  exact readByte_ok_bound h3

/-- The nine position words a record contributes. -/
def recPos (buf : List Nat) (i : Nat) : List Nat :=
  [w32D buf (84 + i * 50 + 12), w32D buf (84 + i * 50 + 16), w32D buf (84 + i * 50 + 20),
   w32D buf (84 + i * 50 + 24), w32D buf (84 + i * 50 + 28), w32D buf (84 + i * 50 + 32),
   w32D buf (84 + i * 50 + 36), w32D buf (84 + i * 50 + 40), w32D buf (84 + i * 50 + 44)]

/-- The nine normal words a record contributes (the record normal, repeated
once per vertex). -/
def recNor (buf : List Nat) (i : Nat) : List Nat :=
  [w32D buf (84 + i * 50), w32D buf (84 + i * 50 + 4), w32D buf (84 + i * 50 + 8),
   w32D buf (84 + i * 50), w32D buf (84 + i * 50 + 4), w32D buf (84 + i * 50 + 8),
   w32D buf (84 + i * 50), w32D buf (84 + i * 50 + 4), w32D buf (84 + i * 50 + 8)]

/-- A record read succeeds when its 48 geometry bytes are present; note the
two trailing attribute bytes of the 50-byte record are not required. -/
theorem stlRecord_ok {buf : List Nat} {i : Nat} (h : 84 + i * 50 + 48 ≤ buf.length) :
    stlRecord buf i = Except.ok (recPos buf i, recNor buf i) := by
  unfold stlRecord
  dsimp only
  rw [@readWord32_ok buf (84 + i * 50) (by omega), exOk_bind]
  rw [@readWord32_ok buf (84 + i * 50 + 4) (by omega), exOk_bind]
  rw [@readWord32_ok buf (84 + i * 50 + 8) (by omega), exOk_bind]
  rw [@readWord32_ok buf (84 + i * 50 + 12) (by omega), exOk_bind]
  rw [@readWord32_ok buf (84 + i * 50 + 16) (by omega), exOk_bind]
  rw [@readWord32_ok buf (84 + i * 50 + 20) (by omega), exOk_bind]
  rw [@readWord32_ok buf (84 + i * 50 + 24) (by omega), exOk_bind]
  rw [@readWord32_ok buf (84 + i * 50 + 28) (by omega), exOk_bind]
  rw [@readWord32_ok buf (84 + i * 50 + 32) (by omega), exOk_bind]
  rw [@readWord32_ok buf (84 + i * 50 + 36) (by omega), exOk_bind]
  rw [@readWord32_ok buf (84 + i * 50 + 40) (by omega), exOk_bind]
  rw [@readWord32_ok buf (84 + i * 50 + 44) (by omega), exOk_bind]
  rfl

/-- A successful record read saw its whole geometry payload. -/
theorem stlRecord_ok_bound {buf : List Nat} {i : Nat} {r}
    (h : stlRecord buf i = Except.ok r) : 84 + i * 50 + 48 ≤ buf.length := by
  unfold stlRecord at h
  obtain ⟨nx, hnx, h⟩ := bind_ok_elim h
  obtain ⟨ny, hny, h⟩ := bind_ok_elim h
  obtain ⟨nz, hnz, h⟩ := bind_ok_elim h
  obtain ⟨a0, ha0, h⟩ := bind_ok_elim h
  obtain ⟨a1, ha1, h⟩ := bind_ok_elim h
  obtain ⟨a2, ha2, h⟩ := bind_ok_elim h
  obtain ⟨b0, hb0, h⟩ := bind_ok_elim h
  obtain ⟨b1, hb1, h⟩ := bind_ok_elim h
  obtain ⟨b2, hb2, h⟩ := bind_ok_elim h
  obtain ⟨c0, hc0, h⟩ := bind_ok_elim h
  obtain ⟨c1, hc1, h⟩ := bind_ok_elim h
  obtain ⟨c2, hc2, h⟩ := bind_ok_elim h
  have := readWord32_ok_bound hc2
  omega

/-- Sequentially reading a run of records succeeds when all of them are in
bounds, producing them in index order. -/
theorem stlRecordsFrom_ok {buf : List Nat} :
    ∀ (k i : Nat), (∀ j, j < k → 84 + (i + j) * 50 + 48 ≤ buf.length) →
      stlRecordsFrom buf i k
        = Except.ok ((List.range' i k).map (fun j => (recPos buf j, recNor buf j))) := by
  intro k
  induction k with
  | zero => intro i _; rfl
  | succ k ih =>
    intro i hb
    have h0 : 84 + i * 50 + 48 ≤ buf.length := by
      have := hb 0 (by omega)
      simpa using this
    show (do
      let r ← stlRecord buf i
      let rest ← stlRecordsFrom buf (i + 1) k
      pure (r :: rest)) = _
    rw [stlRecord_ok h0, exOk_bind]
    rw [ih (i + 1) (fun j hj => by have := hb (j + 1) (by omega); omega)]
    rw [exOk_bind]
    rw [List.range'_succ]
    rfl

/-- Every record of a successful run read succeeded. -/
theorem stlRecordsFrom_ok_elim {buf : List Nat} :
    ∀ {k i : Nat} {rs}, stlRecordsFrom buf i k = Except.ok rs →
      ∀ j, j < k → ∃ r, stlRecord buf (i + j) = Except.ok r := by
  intro k
  induction k with
  | zero => intro i rs _ j hj; omega
  | succ k ih =>
    intro i rs h j hj
    rw [show stlRecordsFrom buf i (k + 1) = (do
      let r ← stlRecord buf i
      let rest ← stlRecordsFrom buf (i + 1) k
      pure (r :: rest)) from rfl] at h
    obtain ⟨r, hr, h⟩ := bind_ok_elim h
    obtain ⟨rest, hrest, _⟩ := bind_ok_elim h
    cases j with
    | zero => exact ⟨r, by simpa using hr⟩
    | succ j' =>
      obtain ⟨r', hr'⟩ := ih hrest j' (by omega)
      refine ⟨r', ?_⟩
      have hshift : i + 1 + j' = i + (j' + 1) := by omega
      rw [hshift] at hr'
      exact hr'

/-- The flat position words of a well-formed binary buffer. -/
def binPositionsSpec (buf : List Nat) (count : Nat) : List Nat :=
  (List.range count).flatMap (fun i => recPos buf i)

/-- The flat normal words of a well-formed binary buffer. -/
def binNormalsSpec (buf : List Nat) (count : Nat) : List Nat :=
  (List.range count).flatMap (fun i => recNor buf i)

/-- Flattening a map is a flat map. -/
theorem flatten_map_eq_flatMap {γ δ : Type} (f : γ → List δ) (l : List γ) :
    (l.map f).flatten = l.flatMap f := by
  induction l with
  | nil => rfl
  | cons x xs ih => simp [ih]

/-- Evaluating the binary decoder on a buffer whose declared records all fit. -/
theorem binaryDecode_eval (buf : List Nat) (count : Nat)
    (hcount : readWord32 buf 80 = Except.ok count)
    (hlen : 84 + count * 50 ≤ buf.length) :
    bufferGeometryFromBinarySTL buf
      = Except.ok ⟨binPositionsSpec buf count, binNormalsSpec buf count⟩ := by
  unfold bufferGeometryFromBinarySTL
  rw [hcount, exOk_bind]
  rw [stlRecordsFrom_ok count 0 (fun j hj => by omega), exOk_bind]
  have hr : List.range' 0 count = List.range count := (List.range_eq_range' count).symm
  rw [hr]
  unfold binPositionsSpec binNormalsSpec
  rw [List.map_map, List.map_map]
  rw [flatten_map_eq_flatMap, flatten_map_eq_flatMap]
  rfl

/-- Byte offsets of the two ignored attribute bytes of each record. -/
def attrByte (count j : Nat) : Prop :=
  ∃ i, i < count ∧ (j = 84 + i * 50 + 48 ∨ j = 84 + i * 50 + 49)

/-- Words assembled from agreeing non-attribute geometry bytes agree. -/
theorem w32D_agree {buf buf' : List Nat} {count : Nat}
    (hagree : ∀ j, j < 84 + count * 50 →
      (∀ i, i < count → j ≠ 84 + i * 50 + 48 ∧ j ≠ 84 + i * 50 + 49) →
      buf'.getD j 0 = buf.getD j 0)
    {i r : Nat} (hi : i < count) (hr : r ≤ 44) :
    w32D buf' (84 + i * 50 + r) = w32D buf (84 + i * 50 + r) := by
  unfold w32D
  have h0 := hagree (84 + i * 50 + r) (by omega)
    (by intro i' _; constructor <;> omega)
  have h1 := hagree (84 + i * 50 + r + 1) (by omega)
    (by intro i' _; constructor <;> omega)
  have h2 := hagree (84 + i * 50 + r + 2) (by omega)
    (by intro i' _; constructor <;> omega)
  have h3 := hagree (84 + i * 50 + r + 3) (by omega)
    (by intro i' _; constructor <;> omega)
  rw [h0, h1, h2, h3]

/-- Congruence for flat maps. -/
theorem flatMap_congr {γ δ : Type} {f g : γ → List δ} :
    ∀ {l : List γ}, (∀ x ∈ l, f x = g x) → l.flatMap f = l.flatMap g := by
  intro l
  induction l with
  | nil => intro _; rfl
  | cons x xs ih =>
    intro h
    simp only [List.flatMap_cons, h x (by simp), ih (fun y hy => h y (by simp [hy]))]

/-- C5: a binary buffer whose little-endian triangle count at offset 80
declares records that all fit decodes successfully to exactly that many
triangles; triangle i is read from the 50-byte record at offset 84 + 50·i as
a little-endian float32 normal followed by three little-endian float32
vertices (each value modelled by its 4-byte bit pattern), and the trailing
2-byte attribute field of every record is ignored: it is never read, and
editing attribute bytes cannot change the decode result. -/
theorem binaryDecode_wellFormed (buf : List Nat) (count : Nat)
    (hcount : readWord32 buf 80 = Except.ok count)
    (hlen : 84 + count * 50 ≤ buf.length) :
    bufferGeometryFromBinarySTL buf
        = Except.ok ⟨binPositionsSpec buf count, binNormalsSpec buf count⟩
      ∧ (binPositionsSpec buf count).length = 9 * count
      ∧ ∀ buf', buf'.length = buf.length →
          (∀ j, j < 84 + count * 50 →
            (∀ i, i < count → j ≠ 84 + i * 50 + 48 ∧ j ≠ 84 + i * 50 + 49) →
            buf'.getD j 0 = buf.getD j 0) →
          bufferGeometryFromBinarySTL buf' = bufferGeometryFromBinarySTL buf := by
  refine ⟨binaryDecode_eval buf count hcount hlen, ?_, ?_⟩
  · unfold binPositionsSpec
    rw [List.length_flatMap]
    have h9 : (List.length ∘ fun i => recPos buf i) = fun _ : Nat => 9 :=
      funext fun i => rfl
    rw [h9, List.map_const', List.sum_replicate, List.length_range, smul_eq_mul]
    omega
  · intro buf' hl hagree
    have hc80 : w32D buf 80 = count := by
      have := readWord32_ok (show 80 + 3 < buf.length by omega)
      rw [this] at hcount
      exact (Except.ok.injEq _ _).mp hcount
    have hcount' : readWord32 buf' 80 = Except.ok count := by
      have hb : 80 + 3 < buf'.length := by omega
      rw [readWord32_ok hb]
      have h80 : w32D buf' 80 = w32D buf 80 := by
        unfold w32D
        have g0 := hagree 80 (by omega) (by intro i' _; constructor <;> omega)
        have g1 := hagree 81 (by omega) (by intro i' _; constructor <;> omega)
        have g2 := hagree 82 (by omega) (by intro i' _; constructor <;> omega)
        have g3 := hagree 83 (by omega) (by intro i' _; constructor <;> omega)
        rw [show (80 : Nat) + 1 = 81 from rfl, show (80 : Nat) + 2 = 82 from rfl,
          show (80 : Nat) + 3 = 83 from rfl, g0, g1, g2, g3]
      rw [h80, hc80]
    rw [binaryDecode_eval buf count hcount hlen,
      binaryDecode_eval buf' count hcount' (by omega)]
    have hpos : binPositionsSpec buf' count = binPositionsSpec buf count := by
      unfold binPositionsSpec
      refine flatMap_congr ?_
      intro i hi
      rw [List.mem_range] at hi
      unfold recPos
      rw [w32D_agree hagree hi (by omega), w32D_agree hagree hi (by omega),
        w32D_agree hagree hi (by omega), w32D_agree hagree hi (by omega),
        w32D_agree hagree hi (by omega), w32D_agree hagree hi (by omega),
        w32D_agree hagree hi (by omega), w32D_agree hagree hi (by omega),
        w32D_agree hagree hi (by omega)]
    have hnor : binNormalsSpec buf' count = binNormalsSpec buf count := by
      unfold binNormalsSpec
      refine flatMap_congr ?_
      intro i hi
      rw [List.mem_range] at hi
      unfold recNor
      have e0 : w32D buf' (84 + i * 50) = w32D buf (84 + i * 50) := by
        have := w32D_agree hagree hi (show 0 ≤ 44 by omega)
        simpa using this
      rw [e0, w32D_agree hagree hi (by omega), w32D_agree hagree hi (by omega)]
    rw [hpos, hnor]

/-- A well-formed one-triangle binary buffer: 80-byte header, count 1, and a
full 50-byte record (48 geometry bytes of value 7, then 2 attribute bytes). -/
def bufOneTri : List Nat :=
  List.replicate 80 0 ++ [1, 0, 0, 0] ++ List.replicate 48 7 ++ [7, 7]

/-- The same buffer with only the two attribute bytes edited. -/
def bufOneTriAttr : List Nat :=
  List.replicate 80 0 ++ [1, 0, 0, 0] ++ List.replicate 48 7 ++ [9, 11]

/-- Witness: the well-formed decode theorem evaluated on the one-triangle
buffer, including the attribute-byte independence applied to a concrete
attribute edit. -/
theorem binaryDecode_wellFormed_witness :
    bufferGeometryFromBinarySTL bufOneTri
        = Except.ok ⟨binPositionsSpec bufOneTri 1, binNormalsSpec bufOneTri 1⟩
      ∧ (binPositionsSpec bufOneTri 1).length = 9 * 1
      ∧ bufferGeometryFromBinarySTL bufOneTriAttr = bufferGeometryFromBinarySTL bufOneTri := by
  have h := binaryDecode_wellFormed bufOneTri 1 (by decide) (by decide)
  exact ⟨h.1, h.2.1, h.2.2 bufOneTriAttr (by decide) (by decide)⟩

/-- C4 (amended): a binary buffer that is too short for the geometry bytes of
its declared records (shorter than 84 + 50·count − 2, i.e. missing more than
the final 2-byte attribute field) fails to decode: the byte reader raises its
out-of-bounds error before any out-of-range byte is fabricated.  The
amendment replaces the bound 84 + 50·count of the original claim, which the
counterexample below refutes: the decoder never reads the last two bytes of
the final record, so a buffer missing exactly those decodes successfully. -/
theorem binaryDecode_truncated (buf : List Nat) (count : Nat)
    (hcount : readWord32 buf 80 = Except.ok count)
    (hlen : buf.length + 2 < 84 + count * 50) :
    ∃ e, bufferGeometryFromBinarySTL buf = Except.error e := by
  cases hd : bufferGeometryFromBinarySTL buf with
  | error e => exact ⟨e, rfl⟩
  | ok g =>
    exfalso
    have hb80 := readWord32_ok_bound hcount
    unfold bufferGeometryFromBinarySTL at hd
    rw [hcount, exOk_bind] at hd
    obtain ⟨rs, hrs, -⟩ := bind_ok_elim hd
    have hcpos : 1 ≤ count := by omega
    obtain ⟨r, hr⟩ := stlRecordsFrom_ok_elim hrs (count - 1) (by omega)
    have := stlRecord_ok_bound hr
    omega

/-- A buffer declaring one triangle but two bytes short of the full record:
only the never-read attribute bytes are missing. -/
def bufAttrTrunc : List Nat :=
  List.replicate 80 0 ++ [1, 0, 0, 0] ++ List.replicate 48 7

/-- C4 (counterexample to the original claim): this buffer declares one
50-byte record but holds only 48 record bytes (132 < 84 + 50·1), yet the
decode succeeds, because the trailing attribute bytes are never read. -/
theorem binaryDecode_truncated_cex :
    readWord32 bufAttrTrunc 80 = Except.ok 1
      ∧ bufAttrTrunc.length = 132
      ∧ (bufferGeometryFromBinarySTL bufAttrTrunc).isOk = true := by
  refine ⟨by decide, by decide, by decide⟩

/-- A buffer declaring one triangle but missing part of the third vertex. -/
def bufGeomTrunc : List Nat :=
  List.replicate 80 0 ++ [1, 0, 0, 0] ++ List.replicate 45 7

/-- Witness: the truncation theorem applied to the short concrete buffer. -/
theorem binaryDecode_truncated_witness :
    ∃ e, bufferGeometryFromBinarySTL bufGeomTrunc = Except.error e :=
  binaryDecode_truncated bufGeomTrunc 1 (by decide) (by decide)

/-- C3 (amended): a buffer shorter than 84 bytes always fails the ASCII
sniff, so the dispatcher sends it down the binary path no matter what it
contains; the binary decode then necessarily fails, because not even the
84-byte header fits.  (The original claim asserts the opposite path
selection; see the counterexample.) -/
theorem shortBuffer_binaryPath (buf : List Nat) (h : buf.length < 84) :
    looksLikeASCII buf = false
      ∧ bufferGeometryFromSTL (.bytes buf) = (bufferGeometryFromBinarySTL buf).map .binary
      ∧ ∃ e, bufferGeometryFromBinarySTL buf = Except.error e := by
  have hA : looksLikeASCII buf = false := by
    unfold looksLikeASCII
    rw [if_pos h]
  refine ⟨hA, ?_, ?_⟩
  · unfold bufferGeometryFromSTL
    dsimp only
    rw [hA]
    simp
  · cases hd : bufferGeometryFromBinarySTL buf with
    | error e => exact ⟨e, rfl⟩
    | ok g =>
      exfalso
      unfold bufferGeometryFromBinarySTL at hd
      obtain ⟨c, hc, -⟩ := bind_ok_elim hd
      have := readWord32_ok_bound hc
      omega

/-- The bytes of the seven-character text solid-space-x: a short buffer with
thoroughly ASCII content. -/
def solidXBuf : List Nat := [115, 111, 108, 105, 100, 32, 120]

/-- C3 (counterexample to the original claim): a 7-byte buffer holding the
text of an ASCII solid is not sent down the ASCII path: the sniff reports
not-ASCII and the dispatcher result is the binary decoder's error, not the
ASCII decoder's (always successful) geometry. -/
theorem shortBuffer_cex :
    looksLikeASCII solidXBuf = false
      ∧ bufferGeometryFromSTL (.bytes solidXBuf)
          ≠ Except.ok (.ascii (asciiVertexTokens (utf8DecodeLossy solidXBuf))) := by
  decide

/-- Witness: the short-buffer theorem applied to the 7-byte solid text. -/
theorem shortBuffer_binaryPath_witness :
    looksLikeASCII solidXBuf = false
      ∧ bufferGeometryFromSTL (.bytes solidXBuf)
          = (bufferGeometryFromBinarySTL solidXBuf).map .binary
      ∧ ∃ e, bufferGeometryFromBinarySTL solidXBuf = Except.error e :=
  shortBuffer_binaryPath solidXBuf (by decide)

/-- C10: the ASCII decoder is total on text, so the dispatcher never fails on
a string input: it always returns the scanned geometry (an empty text, or one
with no vertex match at all, gives the empty mesh rather than an error), and
the binary fallback of the caller can never be reached for text input. -/
theorem asciiDecode_total (s : String) :
    bufferGeometryFromSTL (.text s) = Except.ok (.ascii (asciiVertexTokens s))
      ∧ (bufferGeometryFromSTL (.text s)).isOk = true :=
  ⟨rfl, rfl⟩

/-- A JS number as the assembler sees it: a finite double (modelled by its
exact rational value) or one of the non-finite values. -/
inductive JSNum where
  | fin (q : ℚ)
  | nan
  | inf
  | ninf
deriving DecidableEq

/-- The finite value of an optional numeric field, when the field is present
and finite: the test Number.isFinite(raw.field). -/
def finiteVal : Option JSNum → Option ℚ
  | some (.fin q) => some q
  | _ => none

/-- Host float formatting, abstracted: String(number) and toFixed(4) in the
source are the host's float-to-string conversions, which the embedding takes
as parameters (both are pure functions of the numeric value). -/
structure NumFormat where
  numToStr : ℚ → String
  toFixed4 : ℚ → String

/-- The raw parameter object handed to buildScadFromParameters: a bag of
optional fields as readParameters or a loaded configuration produces (absent
fields model undefined; a non-finite or non-numeric value in a numeric field
behaves like nan under the Number.isFinite guards). -/
structure RawParams where
  overall_scale : Option JSNum
  mirrored : Option Bool
  serial_line1 : Option String
  serial_line2 : Option String
  serial_line3 : Option String
  include_wrist_stamping_die : Option Bool
  pivot_size : Option JSNum
  pivot_extra_clearance : Option JSNum
  pins : Option Bool
  plugs : Option Bool
  include_mesh : Option Bool
  include_knuckle_covers : Option Bool
  string_channel_scale : Option JSNum
  elastic_channel_scale : Option JSNum
  old_style_wrist : Option Bool
  thumb_length : Option JSNum
  thumb_angle : Option JSNum
  thumb_clearance : Option JSNum
  global_scale : Option JSNum
  nominal_clearance : Option JSNum
  bearing_pocket_diameter : Option JSNum
  bearing_pocket_depth : Option JSNum
  pin_index : Option JSNum
  pin_diameter_clearance : Option JSNum
  pins_for_string : Option Bool
  print_finger_phalanx : Option Bool
  print_long_fingers : Option Bool
  print_short_fingers : Option Bool
  print_thumb : Option Bool
  print_thumb_phalanx : Option Bool

/-- JS String.prototype.replace of every double quote by backslash-quote. -/
def jsReplaceQuotes (s : String) : String :=
  ⟨s.data.flatMap (fun c => if c = '"' then ['\\', '"'] else [c])⟩

/-- JS String.prototype.slice(0, n): the first n code units. -/
def jsSlice (n : Nat) (s : String) : String := ⟨s.data.take n⟩

/-- scadStringLiteral: fall back when the value is null, undefined or empty,
then quote-escape, then cut to the first 15 characters, then wrap in double
quotes.  Note the order: the escape runs before the truncation. -/
def scadStringLiteral (s : Option String) (fallback : String) : String :=
  let v := match s with
    | none => fallback
    | some t => if t = "" then fallback else t
  "\"" ++ jsSlice 15 (jsReplaceQuotes v) ++ "\""

/-- The fingerator sub-record of the normalized parameter view. -/
structure FingerParams where
  globalScale : ℚ
  nominalClearance : ℚ
  bearingPocketDiameter : ℚ
  bearingPocketDepth : ℚ
  pinIndex : ℚ
  pinDiameterClearance : ℚ
  pinsForString : Bool
  printFingerPhalanx : Bool
  printLongFingers : Bool
  printShortFingers : Bool
  printThumb : Bool
  printThumbPhalanx : Bool

/-- The normalized parameter view returned by extractParameterValues. -/
structure ExtractedParams where
  overallScale : ℚ
  overallScaleLiteral : String
  mirrored : Bool
  serialLine1Literal : String
  serialLine2Literal : String
  serialLine3Literal : String
  includeWristStampingDie : Bool
  pivotSize : ℚ
  pivotExtraClearance : ℚ
  pins : Bool
  plugs : Bool
  includeMesh : Nat
  includeKnuckleCovers : Bool
  stringChannelScale : ℚ
  elasticChannelScale : ℚ
  oldStyleWrist : Bool
  thumbLength : ℚ
  thumbAngle : ℚ
  thumbClearance : ℚ
  finger : FingerParams

/-- extractParameterValues: apply the per-field finite-number, boolean and
string fallbacks of the source, in source order. -/
def extractParameterValues (F : NumFormat) (raw : RawParams) : ExtractedParams :=
  let overallScale := (finiteVal raw.overall_scale).getD 1.25
  let globalScale := (finiteVal raw.global_scale).getD overallScale
  { overallScale
    overallScaleLiteral := F.toFixed4 overallScale
    mirrored := raw.mirrored.getD false
    serialLine1Literal := scadStringLiteral raw.serial_line1 ""
    serialLine2Literal := scadStringLiteral raw.serial_line2 ""
    serialLine3Literal := scadStringLiteral raw.serial_line3 ""
    includeWristStampingDie := raw.include_wrist_stamping_die.getD true
    pivotSize := (finiteVal raw.pivot_size).getD 1.5875
    pivotExtraClearance := (finiteVal raw.pivot_extra_clearance).getD 0
    pins := raw.pins.getD true
    plugs := raw.plugs.getD true
    includeMesh := match raw.include_mesh with
      | some v => if v then 1 else 0
      | none => 1
    includeKnuckleCovers := raw.include_knuckle_covers.getD true
    stringChannelScale := (finiteVal raw.string_channel_scale).getD 0.9
    elasticChannelScale := (finiteVal raw.elastic_channel_scale).getD 0.9
    oldStyleWrist := raw.old_style_wrist.getD false
    thumbLength := (finiteVal raw.thumb_length).getD 65
    thumbAngle := (finiteVal raw.thumb_angle).getD 45
    thumbClearance := (finiteVal raw.thumb_clearance).getD 0.5
    finger :=
      { globalScale
        nominalClearance := (finiteVal raw.nominal_clearance).getD 0.5
        bearingPocketDiameter := (finiteVal raw.bearing_pocket_diameter).getD 0
        bearingPocketDepth := (finiteVal raw.bearing_pocket_depth).getD 0.4
        pinIndex := (finiteVal raw.pin_index).getD 1
        pinDiameterClearance := (finiteVal raw.pin_diameter_clearance).getD 0
        pinsForString := raw.pins_for_string.getD false
        printFingerPhalanx := raw.print_finger_phalanx.getD true
        printLongFingers := raw.print_long_fingers.getD true
        printShortFingers := raw.print_short_fingers.getD true
        printThumb := raw.print_thumb.getD true
        printThumbPhalanx := raw.print_thumb_phalanx.getD true } }

/-- One value of the assignment map: the JS value kinds formatScadValue
distinguishes. -/
inductive ScadValue where
  | b (v : Bool)
  | num (v : JSNum)
  | str (s : String)
deriving DecidableEq

/-- formatScadValue: booleans as the literal words, non-finite numbers as 0,
finite numbers by the host formatting, strings as themselves. -/
def formatScadValue (F : NumFormat) : ScadValue → String
  | .b true => "true"
  | .b false => "false"
  | .num (.fin q) => F.numToStr q
  | .num _ => "0"
  | .str s => s

/-- The canonical emission schedule of buildAssignmentString. -/
def assignmentOrder : List String :=
  ["overall_scale", "mirrored", "serial_line1", "serial_line2", "serial_line3",
   "include_wrist_stamping_die", "pivot_size", "pivot_extra_clearance", "pins", "plugs",
   "include_mesh", "include_knuckle_covers", "string_channel_scale",
   "elastic_channel_scale", "old_style_wrist", "thumb_length", "thumb_angle",
   "thumb_clearance", "global_scale", "nominal_clearance", "bearing_pocket_diameter",
   "bearing_pocket_depth", "pin_index", "pin_diameter_clearance", "pins_for_string",
   "print_finger_phalanx", "print_long_fingers", "print_short_fingers", "print_thumb",
   "print_thumb_phalanx"]

/-- The base assignment map built from the normalized parameters. -/
def baseMap (p : ExtractedParams) : String → Option ScadValue := fun k =>
  if k = "overall_scale" then some (.str p.overallScaleLiteral)
  else if k = "mirrored" then some (.b p.mirrored)
  else if k = "serial_line1" then some (.str p.serialLine1Literal)
  else if k = "serial_line2" then some (.str p.serialLine2Literal)
  else if k = "serial_line3" then some (.str p.serialLine3Literal)
  else if k = "include_wrist_stamping_die" then some (.b p.includeWristStampingDie)
  else if k = "pivot_size" then some (.num (.fin p.pivotSize))
  else if k = "pivot_extra_clearance" then some (.num (.fin p.pivotExtraClearance))
  else if k = "pins" then some (.b p.pins)
  else if k = "plugs" then some (.b p.plugs)
  else if k = "include_mesh" then some (.num (.fin p.includeMesh))
  else if k = "include_knuckle_covers" then some (.b p.includeKnuckleCovers)
  else if k = "string_channel_scale" then some (.num (.fin p.stringChannelScale))
  else if k = "elastic_channel_scale" then some (.num (.fin p.elasticChannelScale))
  else if k = "old_style_wrist" then some (.b p.oldStyleWrist)
  else if k = "thumb_length" then some (.num (.fin p.thumbLength))
  else if k = "thumb_angle" then some (.num (.fin p.thumbAngle))
  else if k = "thumb_clearance" then some (.num (.fin p.thumbClearance))
  else if k = "global_scale" then some (.num (.fin p.finger.globalScale))
  else if k = "nominal_clearance" then some (.num (.fin p.finger.nominalClearance))
  else if k = "bearing_pocket_diameter" then
    some (.num (.fin p.finger.bearingPocketDiameter))
  else if k = "bearing_pocket_depth" then some (.num (.fin p.finger.bearingPocketDepth))
  else if k = "pin_index" then some (.num (.fin p.finger.pinIndex))
  else if k = "pin_diameter_clearance" then
    some (.num (.fin p.finger.pinDiameterClearance))
  else if k = "pins_for_string" then some (.b p.finger.pinsForString)
  else if k = "print_finger_phalanx" then some (.b p.finger.printFingerPhalanx)
  else if k = "print_long_fingers" then some (.b p.finger.printLongFingers)
  else if k = "print_short_fingers" then some (.b p.finger.printShortFingers)
  else if k = "print_thumb" then some (.b p.finger.printThumb)
  else if k = "print_thumb_phalanx" then some (.b p.finger.printThumbPhalanx)
  else none

/-- buildAssignmentString: spread the overrides over the base map, keep the
canonical schedule order, emit one name-equals-literal line per present key,
joined by newlines. -/
def buildAssignmentString (F : NumFormat) (params : ExtractedParams)
    (overrides : String → Option ScadValue) : String :=
  let merged := fun k => match overrides k with
    | some v => some v
    | none => baseMap params k
  String.intercalate "\n"
    ((assignmentOrder.filter (fun k => (merged k).isSome)).map
      (fun k => k ++ " = " ++ formatScadValue F ((merged k).getD (.str "")) ++ ";"))

/-- The wrist stamping-die supplement block appended by the palm and full
targets (a fixed template: it reads its parameters as SCAD variables). -/
def buildPalmSupplementBlock : String :=
  "if (include_wrist_stamping_die) scale(overall_scale) \x7b  $fn=50;\n"
  ++ "    translate(mirrored?[20,-50,4.99/2]:[5,-50,4.99/2]) difference() \x7b\n"
  ++ "        rotate([0,-90,0]) difference() \x7b\n"
  ++ "            scale([1,2.5,2.5]) m3_wrist_plug();\n"
  ++ "            intersection() \x7b\n"
  ++ "                    m3_wrist_drill();\n"
  ++ "                    translate([5,0,0]) cube([10,20,20], center=true);\n"
  ++ "                \x7d\n"
  ++ "            \x7d\n"
  ++ "        cylinder(d=3.6/overall_scale, h=50, center=true, $fn=20);  // drilling guide hole\n"
  ++ "    \x7d\n"
  ++ "    translate(mirrored?[-6,-50,4.99/2]:[-21,-50,4.99/2]) difference() \x7b\n"
  ++ "        rotate([0,90,0]) union() \x7b\n"
  ++ "            scale([1,2.5,2.5]) m3_wrist_plug();\n"
  ++ "            translate([-5.1+0.5,0,0]) intersection() \x7b\n"
  ++ "                m3_wrist_drill();\n"
  ++ "                translate([2.5,0,0]) cube([4,20,20], center=true);\n"
  ++ "            \x7d\n"
  ++ "        \x7d\n"
  ++ "        cylinder(d=3.6/overall_scale, h=50, center=true, $fn=20); // drilling guide hole\n"
  ++ "        translate([0,3,-4.99/2-0.01]) linear_extrude(slices=1, height=0.5)\n"
  ++ "            scale([-1,1]) text(str(overall_scale*100), size=4, halign=\"center\");\n"
  ++ "    \x7d\n"
  ++ "\x7d"

/-- The derived fingerator constants block (a fixed template reproducing the
reference generator's pivot and clearance arithmetic). -/
def buildFingerDerivedValues : String :=
  "screws = (pin_index == 0);\n"
  ++ "pivot_dia_3mm_screw = 25.4*(3/16)+0.25;\n"
  ++ "pivot_pin_dia_3mm_screw = 3+0.1;\n"
  ++ "pivot_dia_8th_delrin = 25.4*(1/8)+0.25;\n"
  ++ "pivot_pin_dia_16th_pin = 25.4*(1/16)+pin_diameter_clearance;\n"
  ++ "pivot_pin_dia_16th_pin_clearance = pivot_pin_dia_16th_pin+0.3;\n"
  ++ "pivot_dia_13ga_nail = 25.4*(5/32)+0.25;\n"
  ++ "pivot_pin_dia_13ga_nail = 25.4*0.095+pin_diameter_clearance;\n"
  ++ "pivot_array=[pivot_dia_3mm_screw, pivot_dia_8th_delrin, pivot_dia_13ga_nail, pivot_pin_dia_16th_pin_clearance];\n"
  ++ "pin_array=[pivot_pin_dia_3mm_screw, pivot_pin_dia_16th_pin, pivot_pin_dia_13ga_nail, pivot_pin_dia_16th_pin];\n"
  ++ "pivot_size_index=pin_index;\n"
  ++ "pivot_dia= pivot_array[pivot_size_index];\n"
  ++ "pivot_pin_dia=pin_array[pivot_size_index];\n"
  ++ "nut_size=5.5;\n"
  ++ "bolt_head_dia=5.5+0.3;\n"
  ++ "nominal_slotwidth=6+0;\n"
  ++ "adjusted_tabwidth=nominal_slotwidth-nominal_clearance/global_scale;\n"
  ++ "adjusted_slotwidth=nominal_slotwidth;\n"
  ++ "initial_rotation=33.5+0;"

/-- The fixed finger geometry body emitted after the derived values. -/
def fingerGeometryBody : String :=
  "if(print_finger_phalanx) translate([0,0,0]) cut_phalanx(\n"
  ++ "    palm_pivot_size=pivot_dia, knuckle_pivot_size=pivot_dia,\n"
  ++ "    tab_thickness=adjusted_tabwidth, scale_size=global_scale, thumb=false);\n"
  ++ "if(print_thumb_phalanx) translate([30,0,0]) scale([1.1,1,1]) cut_phalanx(\n"
  ++ "    palm_pivot_size=pivot_dia, knuckle_pivot_size=pivot_dia,\n"
  ++ "    tab_thickness=adjusted_tabwidth/1.1, scale_size=global_scale, thumb=true);\n"
  ++ "\n"
  ++ "if(screws && print_long_fingers) translate([-25,0,0]) adjusted_bolt_holes(global_scale, outer_width=13,\n"
  ++ "    offsets=[[[0,-20,9],0],], bolt_dia=pivot_pin_dia,\n"
  ++ "    nut_size=nut_size, bolt_head_dia=bolt_head_dia)\n"
  ++ "        finger(slotwidth=nominal_slotwidth, thumb=false);\n"
  ++ "else if (print_long_fingers) translate([-25,0,0]) adjusted_holes(global_scale,\n"
  ++ "    offsets=[[[0,-20,9],0],], dia=pivot_pin_dia)\n"
  ++ "        finger(slotwidth=nominal_slotwidth, thumb=false);\n"
  ++ "if(screws && print_short_fingers) translate([-50,0,0]) adjusted_bolt_holes(global_scale, outer_width=13,\n"
  ++ "    offsets=[[[0,-20*0.9,9],0],], bolt_dia=pivot_pin_dia,\n"
  ++ "    nut_size=nut_size, bolt_head_dia=bolt_head_dia) scale([1,0.9,1])\n"
  ++ "        finger(slotwidth=nominal_slotwidth, thumb=false);\n"
  ++ "else if (print_short_fingers) translate([-50,0,0]) adjusted_holes(global_scale,\n"
  ++ "    offsets=[[[0,-20*0.9,9],0],], dia=pivot_pin_dia) scale([1,0.9,1])\n"
  ++ "        finger(slotwidth=nominal_slotwidth, thumb=false);\n"
  ++ "if(screws && print_thumb) translate([60,0,0]) adjusted_bolt_holes(global_scale, outer_width=13,\n"
  ++ "    offsets=[[[0,-20*0.77,9*0.72],0],], bolt_dia=pivot_pin_dia,\n"
  ++ "    nut_size=nut_size, bolt_head_dia=bolt_head_dia) scale([1.1,0.77,0.72])\n"
  ++ "        finger(slotwidth=nominal_slotwidth/1.1, thumb=true);\n"
  ++ "else if(print_thumb) translate([60,0,0]) adjusted_holes(global_scale,\n"
  ++ "    offsets=[[[0,-20*0.77,9*0.72],0],], dia=pivot_pin_dia) scale([1.1,0.77,0.72])\n"
  ++ "        finger(slotwidth=nominal_slotwidth/1.1, thumb=true);"

/-- The override maps buildFingerScad installs for the two finger modes. -/
def fingersOverrides : String → Option ScadValue := fun k =>
  if k = "print_thumb" then some (.b false)
  else if k = "print_thumb_phalanx" then some (.b false)
  else none

/-- The override map of the thumb mode. -/
def thumbOverrides : String → Option ScadValue := fun k =>
  if k = "print_finger_phalanx" then some (.b false)
  else if k = "print_long_fingers" then some (.b false)
  else if k = "print_short_fingers" then some (.b false)
  else if k = "print_thumb" then some (.b true)
  else if k = "print_thumb_phalanx" then some (.b true)
  else none

/-- The empty override map. -/
def noOverrides : String → Option ScadValue := fun _ => none

/-- buildFingerScad: fingerator include, assignments with mode overrides,
derived values, geometry body. -/
def buildFingerScad (F : NumFormat) (params : ExtractedParams) (mode : String) : String :=
  let overrides :=
    if mode = "fingers" then fingersOverrides
    else if mode = "thumb" then thumbOverrides
    else noOverrides
  let assignments := buildAssignmentString F params overrides
  "fingerator_auto_run = false;\ninclude <models/fingerator.scad>;\n\n"
    ++ assignments ++ "\n\n" ++ buildFingerDerivedValues ++ "\n\n"
    ++ fingerGeometryBody ++ "\n"

/-- buildPalmScad: palm include, assignments, palm call, supplement block. -/
def buildPalmScad (F : NumFormat) (params : ExtractedParams) : String :=
  let assignments := buildAssignmentString F params noOverrides
  "palm_auto_run = false;\ninclude <models/paraglider_palm_left.scad>;\n\n"
    ++ assignments ++ "\n\nscaled_palm();\n" ++ buildPalmSupplementBlock ++ "\n"

/-- buildFullHandScad: hand wrapper include, assignments, hand call, palm
supplement, derived values, finger body. -/
def buildFullHandScad (F : NumFormat) (params : ExtractedParams) : String :=
  let assignments := buildAssignmentString F params noOverrides
  "palm_auto_run = false;\nfingerator_auto_run = false;\ninclude <models/hand_wrapper.scad>;\n\n"
    ++ assignments ++ "\n\nscaled_hand();\n" ++ buildPalmSupplementBlock ++ "\n\n"
    ++ buildFingerDerivedValues ++ "\n\n" ++ fingerGeometryBody ++ "\n"

/-- buildScadFromParameters: normalize the raw parameters, case-fold the tab
selector (a missing or empty selector means All), and dispatch to the target
builder. -/
def buildScadFromParameters (F : NumFormat) (p : RawParams) (tabName : Option String) :
    String :=
  let params := extractParameterValues F p
  let tab := jsToLower (match tabName with
    | none => "All"
    | some t => if t = "" then "All" else t)
  if tab = "palm" then buildPalmScad F params
  else if tab = "fingers" then buildFingerScad F params "fingers"
  else if tab = "thumb" then buildFingerScad F params "thumb"
  else buildFullHandScad F params

/-- C1: the SCAD source assembler is deterministic: it is embedded as a pure
function of the host number-formatting functions, the parameter set and the
target selector (the source reads no clock, randomness or mutable state on
this path), so two calls on equal inputs produce byte-identical program
text; this holds in particular for the four selectors All, palm, fingers and
thumb. -/
theorem buildScadFromParameters_deterministic (F : NumFormat) (p : RawParams)
    (t : Option String) :
    buildScadFromParameters F p t = buildScadFromParameters F p t := rfl

/-- The spec-side reading of the string-literal rule, modelled from the
spec's words: string fields are truncated to 15 characters first and
quote-escaped second (the spec lists truncation before escaping). -/
def scadStringLiteralClaimed (s : Option String) (fallback : String) : String :=
  let v := match s with
    | none => fallback
    | some t => if t = "" then fallback else t
  "\"" ++ jsReplaceQuotes (jsSlice 15 v) ++ "\""

/-- The merged fallback value scadStringLiteral starts from. -/
def jsFallbackValue (s : Option String) (fallback : String) : String :=
  match s with
  | none => fallback
  | some t => if t = "" then fallback else t

/-- C9 (counterexample to the original claim): on a 15-character serial whose
last character is a double quote, the emitted literal is not the claimed
truncate-then-escape form: the code escapes first and then cuts the escape
sequence in half, leaving a lone backslash as the 15th content character. -/
theorem scadStringLiteral_cex :
    scadStringLiteral (some "aaaaaaaaaaaaaa\"") ""
      ≠ scadStringLiteralClaimed (some "aaaaaaaaaaaaaa\"") "" := by
  decide

/-- C9 (amended): the emitted SCAD literal is double-quoted and its content
is the fallback-resolved value with every double quote replaced by a
backslash-quote pair FIRST and the result then truncated to at most 15
characters (so a replaced quote can be cut to a lone backslash); when the
value is absent or empty the per-field default is used instead, and the
serial fields of extractParameterValues pass the empty string as that
default. -/
theorem scadStringLiteral_escapeThenTruncate :
    (∀ (s : Option String) (fb : String),
      scadStringLiteral s fb
          = "\"" ++ jsSlice 15 (jsReplaceQuotes (jsFallbackValue s fb)) ++ "\""
        ∧ (jsSlice 15 (jsReplaceQuotes (jsFallbackValue s fb))).length ≤ 15)
    ∧ ∀ (F : NumFormat) (p : RawParams),
        (extractParameterValues F p).serialLine1Literal = scadStringLiteral p.serial_line1 ""
        ∧ (extractParameterValues F p).serialLine2Literal = scadStringLiteral p.serial_line2 ""
        ∧ (extractParameterValues F p).serialLine3Literal = scadStringLiteral p.serial_line3 "" := by
  constructor
  · intro s fb
    refine ⟨rfl, ?_⟩
    show (jsSlice 15 (jsReplaceQuotes (jsFallbackValue s fb))).data.length ≤ 15
    unfold jsSlice
    have h := List.length_take 15 (jsReplaceQuotes (jsFallbackValue s fb)).data
    simp only [h]
    omega
  · intro F p
    exact ⟨rfl, rfl, rfl⟩

/-- Whether two character sequences contain the pattern as a contiguous
substring: JS String.prototype.includes. -/
def containsSubstr (pat : List Char) : List Char → Bool
  | [] => pat.isPrefixOf []
  | c :: rest => pat.isPrefixOf (c :: rest) || containsSubstr pat rest

/-- The openscad slice of the application state: module handle and the four
lifecycle flags (the module handle is left abstract here). -/
structure OpenscadState where
  module : Option Nat
  loading : Bool
  loaded : Bool
  unavailable : Bool
  modelsLoaded : Bool
deriving DecidableEq

/-- The full state reset performed by the crash-recovery branch of
compileSCADToSTL: loaded, loading, module, unavailable and modelsLoaded are
all cleared before the retry. -/
def resetOpenscadState (_ : OpenscadState) : OpenscadState :=
  ⟨none, false, false, false, false⟩

/-- The crash signature test: the lower-cased error message contains the
aborted-module text. -/
def abortSignature (msg : String) : Bool :=
  containsSubstr ("program has already aborted").data (jsToLower msg).data

/-- compileSCADToSTL around an abstract runOnce: runOnce stands for the whole
ensureOpenSCADModule + ensureScadModels + write + callMain + read sequence,
whose outcome depends on the environment; it is indexed by the attempt number
so that the two module-instantiation events of a retried request are
distinguishable.  The result carries the final state and how many attempts
ran. -/
def compileSCADToSTL
    (run : Nat → OpenscadState → Except String (List Nat) × OpenscadState)
    (s0 : OpenscadState) : Except String (List Nat) × OpenscadState × Nat :=
  match run 0 s0 with
  | (.ok buf, s1) => (.ok buf, s1, 1)
  | (.error e, s1) =>
    if abortSignature e then
      let s2 := resetOpenscadState s1
      let r := run 1 s2
      (r.1, r.2, 2)
    else (.error e, s1, 1)

/-- C6: the crash-recovery policy of compileSCADToSTL.  A first attempt that
fails with the aborted-module signature fully resets the session state (the
module handle is discarded and every lifecycle flag cleared) and the whole
sequence is retried exactly once, its outcome — success or second failure of
any kind — returned as is with two attempts total; a first failure not
matching the signature propagates immediately after one attempt; a first
success returns after one attempt; and no path ever makes more than two
attempts. -/
theorem compileSCADToSTL_retryPolicy
    (run : Nat → OpenscadState → Except String (List Nat) × OpenscadState)
    (s0 : OpenscadState) :
    (∀ buf s1, run 0 s0 = (.ok buf, s1) →
      compileSCADToSTL run s0 = (.ok buf, s1, 1))
    ∧ (∀ e s1, run 0 s0 = (.error e, s1) → abortSignature e = true →
        compileSCADToSTL run s0
          = ((run 1 (resetOpenscadState s1)).1, (run 1 (resetOpenscadState s1)).2, 2))
    ∧ (∀ e s1, run 0 s0 = (.error e, s1) → abortSignature e = false →
        compileSCADToSTL run s0 = (.error e, s1, 1))
    ∧ (∀ s1, resetOpenscadState s1
        = { module := none, loading := false, loaded := false, unavailable := false,
            modelsLoaded := false })
    ∧ (compileSCADToSTL run s0).2.2 ≤ 2 := by
  refine ⟨?_, ?_, ?_, ?_, ?_⟩
  · intro buf s1 h
    unfold compileSCADToSTL
    rw [h]
  · intro e s1 h ha
    unfold compileSCADToSTL
    rw [h]
    dsimp only
    rw [ha]
    rfl
  · intro e s1 h ha
    unfold compileSCADToSTL
    rw [h]
    dsimp only
    rw [ha]
    rfl
  · intro s1
    rfl
  · unfold compileSCADToSTL
    cases hr : run 0 s0 with
    | mk r s1 =>
      cases r with
      | ok buf =>
        dsimp only
        omega
      | error e =>
        dsimp only
        by_cases ha : abortSignature e
        · rw [if_pos ha]
        · rw [if_neg ha]
          exact Nat.le_succ 1

/-- A concrete crashing-then-recovering environment: the first attempt raises
the aborted-module error, the second returns a one-byte buffer. -/
def crashOnceEnv : Nat → OpenscadState → Except String (List Nat) × OpenscadState :=
  fun n s => if n = 0 then (.error "Aborted(). Program has already aborted!", s)
    else (.ok [42], s)

/-- The session state before the crashing compile: a loaded module. -/
def loadedState : OpenscadState := ⟨some 1, false, true, false, true⟩

/-- Witness: the retry policy evaluated on the crashing environment: the
compile succeeds on the second attempt with a fully reset state and exactly
two attempts. -/
theorem compileSCADToSTL_retryPolicy_witness :
    compileSCADToSTL crashOnceEnv loadedState
      = (.ok [42], resetOpenscadState loadedState, 2) := by
  have h := (compileSCADToSTL_retryPolicy crashOnceEnv loadedState).2.1
    "Aborted(). Program has already aborted!" loadedState (by decide) (by decide)
  rw [h]
  rfl

/-- A 4x4 matrix in the column-major element layout of three.js (entry eN is
elements[N]); scalars are exact rationals standing for the doubles. -/
structure Mat4 where
  e0 : ℚ
  e1 : ℚ
  e2 : ℚ
  e3 : ℚ
  e4 : ℚ
  e5 : ℚ
  e6 : ℚ
  e7 : ℚ
  e8 : ℚ
  e9 : ℚ
  e10 : ℚ
  e11 : ℚ
  e12 : ℚ
  e13 : ℚ
  e14 : ℚ
  e15 : ℚ
deriving DecidableEq

/-- The identity matrix. -/
def idMat4 : Mat4 := ⟨1, 0, 0, 0, 0, 1, 0, 0, 0, 0, 1, 0, 0, 0, 0, 1⟩

/-- three.js Matrix4.multiplyMatrices (this = a * b), column-major. -/
def mat4Mul (a b : Mat4) : Mat4 where
  e0 := a.e0 * b.e0 + a.e4 * b.e1 + a.e8 * b.e2 + a.e12 * b.e3
  e1 := a.e1 * b.e0 + a.e5 * b.e1 + a.e9 * b.e2 + a.e13 * b.e3
  e2 := a.e2 * b.e0 + a.e6 * b.e1 + a.e10 * b.e2 + a.e14 * b.e3
  e3 := a.e3 * b.e0 + a.e7 * b.e1 + a.e11 * b.e2 + a.e15 * b.e3
  e4 := a.e0 * b.e4 + a.e4 * b.e5 + a.e8 * b.e6 + a.e12 * b.e7
  e5 := a.e1 * b.e4 + a.e5 * b.e5 + a.e9 * b.e6 + a.e13 * b.e7
  e6 := a.e2 * b.e4 + a.e6 * b.e5 + a.e10 * b.e6 + a.e14 * b.e7
  e7 := a.e3 * b.e4 + a.e7 * b.e5 + a.e11 * b.e6 + a.e15 * b.e7
  e8 := a.e0 * b.e8 + a.e4 * b.e9 + a.e8 * b.e10 + a.e12 * b.e11
  e9 := a.e1 * b.e8 + a.e5 * b.e9 + a.e9 * b.e10 + a.e13 * b.e11
  e10 := a.e2 * b.e8 + a.e6 * b.e9 + a.e10 * b.e10 + a.e14 * b.e11
  e11 := a.e3 * b.e8 + a.e7 * b.e9 + a.e11 * b.e10 + a.e15 * b.e11
  e12 := a.e0 * b.e12 + a.e4 * b.e13 + a.e8 * b.e14 + a.e12 * b.e15
  e13 := a.e1 * b.e12 + a.e5 * b.e13 + a.e9 * b.e14 + a.e13 * b.e15
  e14 := a.e2 * b.e12 + a.e6 * b.e13 + a.e10 * b.e14 + a.e14 * b.e15
  e15 := a.e3 * b.e12 + a.e7 * b.e13 + a.e11 * b.e14 + a.e15 * b.e15

/-- three.js Vector3.applyMatrix4, including the perspective divide (for the
affine matrices of this scene graph the divisor is 1). -/
def applyMatrix4 (m : Mat4) (v : Vec3 ℚ) : Vec3 ℚ :=
  let w := 1 / (m.e3 * v.x + m.e7 * v.y + m.e11 * v.z + m.e15)
  ⟨(m.e0 * v.x + m.e4 * v.y + m.e8 * v.z + m.e12) * w,
   (m.e1 * v.x + m.e5 * v.y + m.e9 * v.z + m.e13) * w,
   (m.e2 * v.x + m.e6 * v.y + m.e10 * v.z + m.e14) * w⟩

/-- three.js Vector3.subVectors. -/
def vsub (u v : Vec3 ℚ) : Vec3 ℚ := ⟨u.x - v.x, u.y - v.y, u.z - v.z⟩

/-- three.js Vector3.crossVectors. -/
def vcross (u v : Vec3 ℚ) : Vec3 ℚ :=
  ⟨u.y * v.z - u.z * v.y, u.z * v.x - u.x * v.z, u.x * v.y - u.y * v.x⟩

/-- The kinds of scene object the export code distinguishes: a Mesh (carries
geometry), a Group, and every other Object3D subtype. -/
inductive ObjKind where
  | mesh
  | group
  | other
deriving DecidableEq

/-- Geometry data of a mesh node: the position attribute (absent position
makes the exporter skip the mesh), the optional triangle index, and the
stored per-vertex normal attribute, which the export path never reads. -/
structure GeomData where
  position : Option (List (Vec3 ℚ))
  index : Option (List Nat)
  normalAttr : List (Vec3 ℚ)
deriving DecidableEq

/-- A scene node: a name, an object kind, the local matrix relative to the
parent, optional geometry and the child list. -/
inductive SceneNode where
  | node (name : String) (kind : ObjKind) (localMatrix : Mat4)
      (geom : Option GeomData) (children : List SceneNode)

/-- The node name. -/
def SceneNode.name : SceneNode → String
  | .node nm _ _ _ _ => nm

/-- The node kind. -/
def SceneNode.kind : SceneNode → ObjKind
  | .node _ k _ _ _ => k

/-- The local matrix. -/
def SceneNode.localMatrix : SceneNode → Mat4
  | .node _ _ m _ _ => m

/-- The geometry. -/
def SceneNode.geom : SceneNode → Option GeomData
  | .node _ _ _ g _ => g

/-- The children. -/
def SceneNode.children : SceneNode → List SceneNode
  | .node _ _ _ _ cs => cs

/-- The pushTri closure of buildTrianglesFromObject: transform the three
vertices by the node's world matrix, then recompute the normal from the
transformed winding via the abstract normalization function nrm (three.js
Vector3.normalize, whose square root has no exact rational embedding). -/
def pushTri (nrm : Vec3 ℚ → Vec3 ℚ) (world : Mat4) (pa pb pc : Vec3 ℚ) : Tri ℚ :=
  let a := applyMatrix4 world pa
  let b := applyMatrix4 world pb
  let c := applyMatrix4 world pc
  ⟨nrm (vcross (vsub b a) (vsub c a)), a, b, c⟩

/-- The triangles one mesh contributes: indexed triples when an index buffer
exists, consecutive position triples otherwise (a trailing incomplete triple,
which the source would turn into a degenerate NaN triangle, is dropped; no
property proved here depends on it).  The stored normal attribute is not
consulted. -/
def meshTriangles (nrm : Vec3 ℚ → Vec3 ℚ) (world : Mat4) (g : GeomData) : List (Tri ℚ) :=
  match g.position with
  | none => []
  | some pos =>
    match g.index with
    | some idx =>
      (group3 idx).map (fun t =>
        pushTri nrm world (pos.getD t.1 ⟨0, 0, 0⟩) (pos.getD t.2.1 ⟨0, 0, 0⟩)
          (pos.getD t.2.2 ⟨0, 0, 0⟩))
    | none => (group3 pos).map (fun t => pushTri nrm world t.1 t.2.1 t.2.2)

mutual

/-- buildTrianglesFromObject: traverse the node (itself first, then its
children), accumulate the world matrix down the parent chain, and emit the
triangles of every mesh with a position attribute. -/
def buildTrianglesFromObject (nrm : Vec3 ℚ → Vec3 ℚ) (parentWorld : Mat4) :
    SceneNode → List (Tri ℚ)
  | .node _ kind m geom cs =>
    let world := mat4Mul parentWorld m
    (if kind = ObjKind.mesh then
      match geom with
      | some g => meshTriangles nrm world g
      | none => []
    else []) ++ buildTrianglesFromList nrm world cs

/-- The traversal over a child list, in order. -/
def buildTrianglesFromList (nrm : Vec3 ℚ → Vec3 ℚ) (parentWorld : Mat4) :
    List SceneNode → List (Tri ℚ)
  | [] => []
  | c :: rest =>
    buildTrianglesFromObject nrm parentWorld c ++ buildTrianglesFromList nrm parentWorld rest

end

/-- Erase the stored normal attribute of one geometry. -/
def stripGeom (g : GeomData) : GeomData := ⟨g.position, g.index, []⟩

mutual

/-- Erase every stored normal attribute in a scene. -/
def stripNormals : SceneNode → SceneNode
  | .node nm kind m geom cs => .node nm kind m (geom.map stripGeom) (stripNormalsList cs)

/-- Erase stored normals across a child list. -/
def stripNormalsList : List SceneNode → List SceneNode
  | [] => []
  | c :: rest => stripNormals c :: stripNormalsList rest

end

/-- Membership in the child-list traversal comes from one child's traversal. -/
theorem mem_buildTrianglesFromList {nrm : Vec3 ℚ → Vec3 ℚ} {pw : Mat4} {t : Tri ℚ} :
    ∀ {l : List SceneNode},
      t ∈ buildTrianglesFromList nrm pw l ↔ ∃ c ∈ l, t ∈ buildTrianglesFromObject nrm pw c := by
  intro l
  induction l with
  | nil =>
    simp [buildTrianglesFromList]
  | cons c rest ih =>
    rw [buildTrianglesFromList, List.mem_append, ih]
    constructor
    · rintro (h | ⟨d, hd, h⟩)
      · exact ⟨c, by simp, h⟩
      · exact ⟨d, by simp [hd], h⟩
    · rintro ⟨d, hd, h⟩
      rcases List.mem_cons.mp hd with rfl | hd'
      · exact Or.inl h
      · exact Or.inr ⟨d, hd', h⟩

/-- Every triangle a mesh contributes has its normal recomputed from the
transformed winding. -/
theorem meshTriangles_normal {nrm : Vec3 ℚ → Vec3 ℚ} {world : Mat4} {g : GeomData}
    {t : Tri ℚ} (h : t ∈ meshTriangles nrm world g) :
    t.n = nrm (vcross (vsub t.b t.a) (vsub t.c t.a)) := by
  unfold meshTriangles at h
  cases hp : g.position with
  | none => rw [hp] at h; cases h
  | some pos =>
    rw [hp] at h
    cases hi : g.index with
    | some idx =>
      rw [hi] at h
      obtain ⟨x, -, rfl⟩ := List.mem_map.mp h
      rfl
    | none =>
      rw [hi] at h
      obtain ⟨x, -, rfl⟩ := List.mem_map.mp h
      rfl

/-- Size bound: a child is smaller than its parent node. -/
theorem child_sizeOf_lt {c : SceneNode} {nm : String} {kind : ObjKind} {m : Mat4}
    {geom : Option GeomData} {cs : List SceneNode} (hc : c ∈ cs) :
    sizeOf c < sizeOf (SceneNode.node nm kind m geom cs) := by
  have h1 := List.sizeOf_lt_of_mem hc
  simp only [SceneNode.node.sizeOf_spec]
  omega

/-- Normal recomputation, by strong induction on the node size. -/
theorem buildTriangles_normal_aux (nrm : Vec3 ℚ → Vec3 ℚ) :
    ∀ (n : Nat) (s : SceneNode), sizeOf s ≤ n → ∀ (pw : Mat4) (t : Tri ℚ),
      t ∈ buildTrianglesFromObject nrm pw s →
      t.n = nrm (vcross (vsub t.b t.a) (vsub t.c t.a)) := by
  intro n
  induction n with
  | zero =>
    intro s hs
    exfalso
    cases s with
    | node nm kind m geom cs =>
      simp only [SceneNode.node.sizeOf_spec] at hs
      omega
  | succ k ih =>
    intro s hs pw t ht
    cases s with
    | node nm kind m geom cs =>
      rw [buildTrianglesFromObject.eq_def] at ht
      dsimp only at ht
      rw [List.mem_append] at ht
      cases ht with
      | inl hown =>
        split at hown
        · cases hg : geom with
          | none => rw [hg] at hown; cases hown
          | some g =>
            rw [hg] at hown
            exact meshTriangles_normal hown
        · cases hown
      | inr hlist =>
        rw [mem_buildTrianglesFromList] at hlist
        obtain ⟨c, hc, ht'⟩ := hlist
        refine ih c ?_ _ t ht'
        have h1 := @child_sizeOf_lt c nm kind m geom cs hc
        omega

/-- Stripping stored normals does not change a mesh's contribution. -/
theorem meshTriangles_strip (nrm : Vec3 ℚ → Vec3 ℚ) (world : Mat4) (g : GeomData) :
    meshTriangles nrm world (stripGeom g) = meshTriangles nrm world g := by
  cases g
  rfl

/-- Stored-normal independence, by strong induction on the node size. -/
theorem buildTriangles_strip_aux (nrm : Vec3 ℚ → Vec3 ℚ) :
    ∀ (n : Nat) (s : SceneNode), sizeOf s ≤ n → ∀ (pw : Mat4),
      buildTrianglesFromObject nrm pw (stripNormals s)
        = buildTrianglesFromObject nrm pw s := by
  intro n
  induction n with
  | zero =>
    intro s hs
    exfalso
    cases s with
    | node nm kind m geom cs =>
      simp only [SceneNode.node.sizeOf_spec] at hs
      omega
  | succ k ih =>
    intro s hs pw
    cases s with
    | node nm kind m geom cs =>
      rw [stripNormals]
      simp only [buildTrianglesFromObject.eq_def]
      have hown : (if kind = ObjKind.mesh then
          match geom.map stripGeom with
          | some g => meshTriangles nrm (mat4Mul pw m) g
          | none => []
        else [])
          = (if kind = ObjKind.mesh then
          match geom with
          | some g => meshTriangles nrm (mat4Mul pw m) g
          | none => []
        else []) := by
        cases geom with
        | none => rfl
        | some g =>
          split
          · exact meshTriangles_strip nrm (mat4Mul pw m) g
          · rfl
      rw [hown]
      have hlist : ∀ (l : List SceneNode), (∀ c ∈ l, sizeOf c ≤ k) →
          buildTrianglesFromList nrm (mat4Mul pw m) (stripNormalsList l)
            = buildTrianglesFromList nrm (mat4Mul pw m) l := by
        intro l
        induction l with
        | nil => intro _; rfl
        | cons c rest ihl =>
          intro hb
          rw [stripNormalsList, buildTrianglesFromList, buildTrianglesFromList]
          rw [ih c (hb c (by simp)) (mat4Mul pw m),
            ihl (fun d hd => hb d (by simp [hd]))]
      rw [hlist cs (fun c hc => by
        have h1 := @child_sizeOf_lt c nm kind m geom cs hc
        omega)]

/-- C7: on the export path, every exported triangle's normal equals the
normalization of the cross product of the transformed edge vectors — the
stored triangle already holds the vertices after the accumulated world
transform, and the recorded normal is exactly nrm((b-a) x (c-a)) of those
stored vertices; moreover the stored per-vertex normal attribute is never
consulted: erasing every stored normal of the scene leaves the export
output unchanged.  The three.js normalization (a square root, which has no
exact rational embedding) enters only through the abstract function nrm. -/
theorem exportNormals_recomputed (nrm : Vec3 ℚ → Vec3 ℚ) (pw : Mat4) (s : SceneNode) :
    (∀ t ∈ buildTrianglesFromObject nrm pw s,
        t.n = nrm (vcross (vsub t.b t.a) (vsub t.c t.a)))
    ∧ buildTrianglesFromObject nrm pw (stripNormals s)
        = buildTrianglesFromObject nrm pw s :=
  ⟨fun t ht => buildTriangles_normal_aux nrm (sizeOf s) s (Nat.le_refl _) pw t ht,
   buildTriangles_strip_aux nrm (sizeOf s) s (Nat.le_refl _) pw⟩

/-- The component name chosen for a direct child: its own name when nonempty,
otherwise a synthetic name carrying the child index and kind. -/
def componentName (idx : Nat) (c : SceneNode) : String :=
  if c.name ≠ "" then c.name
  else if c.kind = ObjKind.group then "component_group_" ++ toString idx
  else "component_" ++ toString idx

/-- exportSTLComponentsZip, as the archive content it produces: walk the
direct children with their indices; a child that is neither a mesh nor a
group is skipped, a child whose subtree yields no triangles is skipped, and
each remaining child contributes one named stl entry; when no child
contributed, fall back to a single synthetic component holding the whole
flattened scene (or no archive at all if even that is empty). -/
def exportComponents (nrm : Vec3 ℚ → Vec3 ℚ) (fmt : ℚ → String) (pw : Mat4)
    (root : SceneNode) : List (String × String) :=
  let world := mat4Mul pw root.localMatrix
  let entries := root.children.enum.filterMap (fun p =>
    if p.2.kind = ObjKind.mesh ∨ p.2.kind = ObjKind.group then
      let tris := buildTrianglesFromObject nrm world p.2
      if tris.length = 0 then none
      else
        let nm := componentName p.1 p.2
        some (nm ++ ".stl", trianglesToAsciiSTL fmt tris nm)
    else none)
  if entries.length = 0 then
    let tris := buildTrianglesFromObject nrm pw root
    if tris.length = 0 then []
    else [("component_0.stl", trianglesToAsciiSTL fmt tris "component_0")]
  else entries

/-- The second component of an enumerated pair is a member of the list. -/
theorem snd_mem_of_mem_enumFrom {γ : Type} :
    ∀ {l : List γ} {n : Nat} {p : Nat × γ}, p ∈ l.enumFrom n → p.2 ∈ l := by
  intro l
  induction l with
  | nil => intro n p h; cases h
  | cons c rest ih =>
    intro n p h
    rcases List.mem_cons.mp h with rfl | h'
    · simp
    · exact List.mem_cons_of_mem c (ih h')

/-- The second component of an enumerated pair is a member of the list. -/
theorem snd_mem_of_mem_enumL {γ : Type} {l : List γ} {p : Nat × γ}
    (h : p ∈ l.enum) : p.2 ∈ l :=
  snd_mem_of_mem_enumFrom h

/-- Every member occurs at some index of the enumeration. -/
theorem mem_enumFrom_of_mem {γ : Type} :
    ∀ {l : List γ} {c : γ}, c ∈ l → ∀ (n : Nat), ∃ i, (i, c) ∈ l.enumFrom n := by
  intro l
  induction l with
  | nil => intro c h; cases h
  | cons a rest ih =>
    intro c h n
    rcases List.mem_cons.mp h with rfl | h'
    · exact ⟨n, by simp⟩
    · obtain ⟨i, hi⟩ := ih h' (n + 1)
      exact ⟨i, List.mem_cons_of_mem (n, a) hi⟩

/-- Every member occurs at some index of the enumeration. -/
theorem mem_enumL_of_mem {γ : Type} {l : List γ} {c : γ} (h : c ∈ l) :
    ∃ i, (i, c) ∈ l.enum :=
  mem_enumFrom_of_mem h 0

/-- The child entries of the archive are exactly the eligible
triangle-yielding children, mapped to their named entries. -/
theorem exportEntries_eq (nrm : Vec3 ℚ → Vec3 ℚ) (fmt : ℚ → String) (world : Mat4) :
    ∀ (l : List (Nat × SceneNode)),
      l.filterMap (fun p =>
        if p.2.kind = ObjKind.mesh ∨ p.2.kind = ObjKind.group then
          if (buildTrianglesFromObject nrm world p.2).length = 0 then none
          else some (componentName p.1 p.2 ++ ".stl",
            trianglesToAsciiSTL fmt (buildTrianglesFromObject nrm world p.2)
              (componentName p.1 p.2))
        else none)
      = (l.filter (fun p =>
          decide ((p.2.kind = ObjKind.mesh ∨ p.2.kind = ObjKind.group)
            ∧ buildTrianglesFromObject nrm world p.2 ≠ []))).map
          (fun p => (componentName p.1 p.2 ++ ".stl",
            trianglesToAsciiSTL fmt (buildTrianglesFromObject nrm world p.2)
              (componentName p.1 p.2))) := by
  intro l
  induction l with
  | nil => rfl
  | cons p rest ih =>
    rw [List.filterMap_cons, List.filter_cons, ih]
    by_cases h1 : p.2.kind = ObjKind.mesh ∨ p.2.kind = ObjKind.group
    · by_cases h2 : (buildTrianglesFromObject nrm world p.2).length = 0
      · have h2' : buildTrianglesFromObject nrm world p.2 = [] :=
          List.length_eq_zero.mp h2
        simp [h1, h2, h2']
      · have h2' : buildTrianglesFromObject nrm world p.2 ≠ [] := by
          intro he
          rw [he] at h2
          exact h2 rfl
        simp [h1, h2, h2']
    · simp [h1]

/-- C8 (amended): partitioned export.  (a) When no direct child of the root
yields any triangles but the root itself flattens to a nonempty mesh, the
archive holds exactly one synthetic component holding the whole flattened
mesh, so the archive is never empty while geometry exists.  (b) When some
mesh-or-group child yields triangles, the archive holds exactly one named
entry per triangle-yielding mesh-or-group child, in child order.  The
amendment restricts (b) to mesh-or-group children: a child of any other kind
is skipped by the entry loop even when its subtree contains geometry, as the
counterexample to the original claim shows. -/
theorem exportComponents_spec (nrm : Vec3 ℚ → Vec3 ℚ) (fmt : ℚ → String) (pw : Mat4)
    (root : SceneNode) :
    ((∀ c ∈ root.children,
        buildTrianglesFromObject nrm (mat4Mul pw root.localMatrix) c = []) →
      buildTrianglesFromObject nrm pw root ≠ [] →
      exportComponents nrm fmt pw root
        = [("component_0.stl",
            trianglesToAsciiSTL fmt (buildTrianglesFromObject nrm pw root) "component_0")])
    ∧ ((∃ c ∈ root.children, (c.kind = ObjKind.mesh ∨ c.kind = ObjKind.group)
          ∧ buildTrianglesFromObject nrm (mat4Mul pw root.localMatrix) c ≠ []) →
        exportComponents nrm fmt pw root
          = (root.children.enum.filter (fun p =>
              decide ((p.2.kind = ObjKind.mesh ∨ p.2.kind = ObjKind.group)
                ∧ buildTrianglesFromObject nrm (mat4Mul pw root.localMatrix) p.2 ≠ []))).map
              (fun p => (componentName p.1 p.2 ++ ".stl",
                trianglesToAsciiSTL fmt
                  (buildTrianglesFromObject nrm (mat4Mul pw root.localMatrix) p.2)
                  (componentName p.1 p.2)))) := by
  constructor
  · intro hall hroot
    unfold exportComponents
    dsimp only
    rw [exportEntries_eq]
    have hfilt : root.children.enum.filter (fun p =>
        decide ((p.2.kind = ObjKind.mesh ∨ p.2.kind = ObjKind.group)
          ∧ buildTrianglesFromObject nrm (mat4Mul pw root.localMatrix) p.2 ≠ [])) = [] := by
      rw [List.filter_eq_nil_iff]
      intro p hp
      have hm := snd_mem_of_mem_enumL hp
      simp [hall p.2 hm]
    rw [hfilt]
    simp only [List.map_nil, List.length_nil, if_pos rfl]
    have hlen : (buildTrianglesFromObject nrm pw root).length ≠ 0 := by
      intro h0
      exact hroot (List.length_eq_zero.mp h0)
    rw [if_neg hlen]
    simp
  · rintro ⟨c, hc, helig, hne⟩
    unfold exportComponents
    dsimp only
    rw [exportEntries_eq]
    obtain ⟨i, hi⟩ := mem_enumL_of_mem hc
    have hmem : (i, c) ∈ root.children.enum.filter (fun p =>
        decide ((p.2.kind = ObjKind.mesh ∨ p.2.kind = ObjKind.group)
          ∧ buildTrianglesFromObject nrm (mat4Mul pw root.localMatrix) p.2 ≠ [])) :=
      List.mem_filter.mpr ⟨hi, by simp [helig, hne]⟩
    have hlen : ((root.children.enum.filter (fun p =>
        decide ((p.2.kind = ObjKind.mesh ∨ p.2.kind = ObjKind.group)
          ∧ buildTrianglesFromObject nrm (mat4Mul pw root.localMatrix) p.2 ≠ []))).map
          (fun p => (componentName p.1 p.2 ++ ".stl",
            trianglesToAsciiSTL fmt
              (buildTrianglesFromObject nrm (mat4Mul pw root.localMatrix) p.2)
              (componentName p.1 p.2)))).length ≠ 0 := by
      rw [List.length_map]
      have := List.length_pos_of_mem hmem
      omega
    rw [if_neg hlen]

/-- Unfolding the traversal at a node. -/
theorem buildTris_node (nrm : Vec3 ℚ → Vec3 ℚ) (pw : Mat4) (nm : String)
    (kind : ObjKind) (m : Mat4) (geom : Option GeomData) (cs : List SceneNode) :
    buildTrianglesFromObject nrm pw (.node nm kind m geom cs)
      = (if kind = ObjKind.mesh then
          match geom with
          | some g => meshTriangles nrm (mat4Mul pw m) g
          | none => []
        else []) ++ buildTrianglesFromList nrm (mat4Mul pw m) cs := by
  rw [buildTrianglesFromObject.eq_def]

/-- Unfolding the traversal at an empty child list. -/
theorem buildList_nil (nrm : Vec3 ℚ → Vec3 ℚ) (pw : Mat4) :
    buildTrianglesFromList nrm pw [] = [] := by
  rw [buildTrianglesFromList.eq_def]

/-- Unfolding the traversal at a child. -/
theorem buildList_cons (nrm : Vec3 ℚ → Vec3 ℚ) (pw : Mat4) (c : SceneNode)
    (rest : List SceneNode) :
    buildTrianglesFromList nrm pw (c :: rest)
      = buildTrianglesFromObject nrm pw c ++ buildTrianglesFromList nrm pw rest := by
  rw [buildTrianglesFromList.eq_def]

/-- A concrete stand-in for the normalization function in evaluated
instances (the properties proved hold for every nrm). -/
def vid : Vec3 ℚ → Vec3 ℚ := fun v => v

/-- A concrete stand-in for host float formatting in evaluated instances. -/
def fmtQ : ℚ → String := fun q => toString q.num

/-- One triangle of geometry, carrying a (deliberately bogus) stored normal
attribute that the export path must ignore. -/
def triGeom : GeomData := ⟨some [⟨0, 0, 0⟩, ⟨1, 0, 0⟩, ⟨0, 1, 0⟩], none, [⟨9, 9, 9⟩]⟩

/-- A named mesh child. -/
def meshChild : SceneNode := .node "part" ObjKind.mesh idMat4 (some triGeom) []

/-- A mesh buried below a non-mesh non-group node. -/
def innerMesh : SceneNode := .node "inner" ObjKind.mesh idMat4 (some triGeom) []

/-- A direct child that is neither a mesh nor a group but whose subtree
contains geometry. -/
def otherChild : SceneNode := .node "hidden" ObjKind.other idMat4 none [innerMesh]

/-- A root with one triangle-yielding mesh child and one triangle-yielding
child of another kind. -/
def cexRoot : SceneNode := .node "" ObjKind.group idMat4 none [meshChild, otherChild]

/-- A scene whose geometry sits directly on the root node. -/
def rootOnly : SceneNode := .node "" ObjKind.mesh idMat4 (some triGeom) []

/-- C8 (counterexample to the original claim): two direct children of this
root yield triangles, but the archive holds exactly one named component —
the child that is neither a mesh nor a group is skipped by the entry loop
even though its subtree flattens to a nonempty mesh. -/
theorem exportComponents_cex :
    (exportComponents vid fmtQ idMat4 cexRoot).map Prod.fst = ["part.stl"]
      ∧ buildTrianglesFromObject vid (mat4Mul idMat4 cexRoot.localMatrix) otherChild
          ≠ [] := by
  constructor
  · simp [exportComponents, cexRoot, meshChild, otherChild, innerMesh, triGeom,
      buildTris_node, buildList_nil, buildList_cons, meshTriangles,
      group3, componentName, SceneNode.children, SceneNode.localMatrix, SceneNode.kind,
      SceneNode.name, List.enum, List.enumFrom]
  · simp [cexRoot, otherChild, innerMesh, triGeom, buildTris_node,
      buildList_nil, buildList_cons, meshTriangles, group3, SceneNode.localMatrix]

/-- Witness: the fallback branch of the amended theorem evaluated on the
root-geometry scene: exactly one synthetic component with the full mesh. -/
theorem exportComponents_spec_witness :
    exportComponents vid fmtQ idMat4 rootOnly
      = [("component_0.stl",
          trianglesToAsciiSTL fmtQ (buildTrianglesFromObject vid idMat4 rootOnly)
            "component_0")] :=
  (exportComponents_spec vid fmtQ idMat4 rootOnly).1
    (by simp [rootOnly, SceneNode.children])
    (by simp [rootOnly, triGeom, buildTris_node, buildList_nil, buildList_cons,
      meshTriangles, group3, SceneNode.kind, SceneNode.localMatrix, SceneNode.geom])

/-- Witness: the normal-recomputation theorem evaluated on the concrete mesh
child: its one exported triangle carries the recomputed normal, and the
stored normal attribute is ignored. -/
theorem exportNormals_recomputed_witness :
    pushTri vid (mat4Mul idMat4 idMat4) ⟨0, 0, 0⟩ ⟨1, 0, 0⟩ ⟨0, 1, 0⟩
        ∈ buildTrianglesFromObject vid idMat4 meshChild
      ∧ (pushTri vid (mat4Mul idMat4 idMat4) ⟨0, 0, 0⟩ ⟨1, 0, 0⟩ ⟨0, 1, 0⟩).n
          = vid (vcross
              (vsub (pushTri vid (mat4Mul idMat4 idMat4) ⟨0, 0, 0⟩ ⟨1, 0, 0⟩ ⟨0, 1, 0⟩).b
                (pushTri vid (mat4Mul idMat4 idMat4) ⟨0, 0, 0⟩ ⟨1, 0, 0⟩ ⟨0, 1, 0⟩).a)
              (vsub (pushTri vid (mat4Mul idMat4 idMat4) ⟨0, 0, 0⟩ ⟨1, 0, 0⟩ ⟨0, 1, 0⟩).c
                (pushTri vid (mat4Mul idMat4 idMat4) ⟨0, 0, 0⟩ ⟨1, 0, 0⟩ ⟨0, 1, 0⟩).a)) := by
  have hm : pushTri vid (mat4Mul idMat4 idMat4) ⟨0, 0, 0⟩ ⟨1, 0, 0⟩ ⟨0, 1, 0⟩
      ∈ buildTrianglesFromObject vid idMat4 meshChild := by
    simp [meshChild, triGeom, buildTris_node, buildList_nil, buildList_cons,
      meshTriangles, group3]
  exact ⟨hm, (exportNormals_recomputed vid idMat4 meshChild).1 _ hm⟩
